import Mathlib

/-!
# Remote attestation core: base64 decoding and the in-enclave JWT flow

A shallow embedding of `src/enclave/inside/crypto/base64.cpp` and of
`accless_get_attestation_jwt_wrapper` in `src/enclave/inside/attestation.cpp`.

Bytes and characters are natural numbers (an `unsigned char` is a number below
256). The C++ `int` accumulator of the decoder is an `Int` that is wrapped to
32 bits after every operation.

The wrapper is a function from the module and its collaborators (the
untrusted host, the SGX SDK primitives, the sandbox allocator) to the result of
the run: how it ends, the calls and writes it made in order, the module it
leaves behind and the two out slots. Line numbers are those of
`attestation.cpp`.
-/

namespace Faasm

set_option maxRecDepth 100000

/-! ## base64.cpp -/

/-- The string constant `base64Chars` of `base64Decode`, as character codes. -/
def base64Chars : List Nat :=
  "ABCDEFGHIJKLMNOPQRSTUVWXYZabcdefghijklmnopqrstuvwxyz0123456789+/".toList.map Char.toNat

/-- The C library predicate `isalnum` in the "C" locale. -/
def isalnum (c : Nat) : Bool :=
  (48 ≤ c && c ≤ 57) || (65 ≤ c && c ≤ 90) || (97 ≤ c && c ≤ 122)

/-- The lambda `isBase64` of `base64Decode`: `isalnum(c) || c == '+' || c == '/'`. -/
def isBase64 (c : Nat) : Bool :=
  isalnum c || c == 43 || c == 47

/-- The value `std::string::npos` (the largest `size_t`). -/
def npos : Nat := 2 ^ 64 - 1

/-- Index of the first occurrence of `c` in `cs`, counted from `i`;
`npos` when there is none (`std::string::find`). -/
def findFrom (c : Nat) : List Nat → Nat → Nat
  | [], _ => npos
  | d :: ds, i => if d = c then i else findFrom c ds (i + 1)

/-- The call `base64Chars.find(c)`. -/
def base64Find (c : Nat) : Nat := findFrom c base64Chars 0

/-- Conversion of an integer to a 32-bit two's complement `int`. -/
def wrapInt32 (x : Int) : Int := (x + 2 ^ 31) % 2 ^ 32 - 2 ^ 31

/-- Conversion of an `int` to `size_t` (64-bit unsigned). -/
def toSizeT (x : Int) : Int := x % 2 ^ 64

/-- The assignment `val = (val << 6) + base64Chars.find(c)`: the shift is done
in `int`, the sum in `size_t`, and the result is converted back to `int`. -/
def nextVal (val : Int) (c : Nat) : Int :=
  wrapInt32 ((toSizeT (wrapInt32 (val * 2 ^ 6)) + (base64Find c : Int)) % 2 ^ 64)

/-- The expression `(uint8_t)((val >> valb) & 0xFF)`: an arithmetic shift of
the `int`, masked to one byte. -/
def outByte (val valb : Int) : Nat :=
  ((val / 2 ^ valb.toNat) % 256).toNat

/-- The `for` loop of `base64Decode`, from the state `(val, valb, output)`. -/
def base64DecodeLoop : List Nat → Int → Int → List Nat → List Nat
  | [], _, _, output => output
  | c :: cs, val, valb, output =>
    if isBase64 c then
      if 0 ≤ valb + 6 then
        base64DecodeLoop cs (nextVal val c) (valb + 6 - 8)
          (output ++ [outByte (nextVal val c) (valb + 6)])
      else
        base64DecodeLoop cs (nextVal val c) (valb + 6) output
    else output

/-- The function `base64Decode`: the loop started at `val = 0`, `valb = -8` and
an empty output. -/
def base64Decode (input : List Nat) : List Nat :=
  base64DecodeLoop input 0 (-8) []

/-! ### Standard base64 encoding (RFC 4648), the reference for the round trip -/

/-- The alphabet character for a 6-bit value. -/
def base64Char (i : Nat) : Nat := base64Chars.getD i 0

/-- Standard base64 encoding without padding: three bytes give four
characters, a final group of one or two bytes gives two or three. -/
def base64EncodeNoPad : List Nat → List Nat
  | [] => []
  | [a] => [base64Char (a / 4), base64Char (a % 4 * 16)]
  | [a, b] => [base64Char (a / 4), base64Char (a % 4 * 16 + b / 16), base64Char (b % 16 * 4)]
  | a :: b :: c :: rest =>
    base64Char (a / 4) :: base64Char (a % 4 * 16 + b / 16) ::
      base64Char (b % 16 * 4 + c / 64) :: base64Char (c % 64) :: base64EncodeNoPad rest

/-- The padding of a standard encoding: `=` repeated up to a multiple of four
characters. -/
def base64Padding (n : Nat) : List Nat := List.replicate ((3 - n % 3) % 3) 61

/-- Standard base64 encoding, with (`pad = true`) or without trailing `=`. -/
def base64Encode (pad : Bool) (x : List Nat) : List Nat :=
  base64EncodeNoPad x ++ (if pad then base64Padding x.length else [])

/-! ## attestation.cpp: `accless_get_attestation_jwt_wrapper` -/

/-- Status `SGX_SUCCESS` of the SGX SDK. -/
def SGX_SUCCESS : Nat := 0

/-- Status `SGX_ERROR_UNEXPECTED` of the SGX SDK. -/
def SGX_ERROR_UNEXPECTED : Nat := 1

/-- Status `SGX_ERROR_INVALID_PARAMETER` of the SGX SDK. -/
def SGX_ERROR_INVALID_PARAMETER : Nat := 2

/-- Status `SGX_ERROR_MAC_MISMATCH` of the SGX SDK. -/
def SGX_ERROR_MAC_MISMATCH : Nat := 0x3001

/-- Size in bytes of an AES-GCM initialisation vector. -/
def SGX_AESGCM_IV_SIZE : Nat := 12

/-- Size in bytes of an AES-GCM tag. -/
def SGX_AESGCM_MAC_SIZE : Nat := 16

/-- Size in bytes of `sgx_aes_gcm_128bit_key_t`. -/
def SGX_AESGCM_KEY_SIZE : Nat := 16

/-- Memory as seen from a pointer: the byte at each offset. For the transfer
slot the offsets below `dataXferSize` are the transfer buffer and the larger
ones are whatever follows it in the enclave. -/
abbrev Mem := Nat → Nat

/-- The `count` bytes at `ptr + off` (the constructors `std::string(first, last)`
and `std::string(ptr, count)`). -/
def readMem (mem : Mem) (off count : Nat) : List Nat :=
  (List.range count).map (fun i => mem (off + i))

/-- The two coordinates of a P-256 public key (`FaasmPublicKey`). -/
structure FaasmPublicKey where
  gx : List Nat
  gy : List Nat
deriving DecidableEq, Repr

/-- The fields of `sgx_report_t` that the engine uses: the measurement
`body.mr_enclave` and `body.report_data`. -/
structure SgxReport where
  mrEnclave : List Nat
  reportData : List Nat
deriving DecidableEq, Repr

/-- The fields of `EnclaveWasmModule` that the attestation functions use. -/
structure EnclaveWasmModule where
  pubKey : FaasmPublicKey
  privKey : List Nat
  cachedSgxReport : Option SgxReport
  dataXferPtr : Option Mem
  dataXferSize : Nat
  acclessEnabled : Bool

/-- What the untrusted host returns from `ocallAttGetQETargetInfo`: the
transport status, the inner return value and the bytes of the target info. -/
structure QETargetInfoResult where
  sgxReturnValue : Nat
  returnValue : Int
  targetInfo : List Nat

/-- What the untrusted host returns from `ocallAttValidateQuote`, with the
transfer slot `(dataXferPtr, dataXferSize)` as the host leaves it. -/
structure ValidateQuoteResult where
  sgxReturnValue : Nat
  returnValue : Int
  jwtResponseSize : Int
  dataXferPtr : Option Mem
  dataXferSize : Nat

/-- Result of `sgx_create_report`. -/
structure CreateReportResult where
  status : Nat
  report : SgxReport

/-- Result of `sgx_ecc256_compute_shared_dhkey`: the status and the 32 bytes of
`sgx_ec256_dh_shared_t`. -/
structure SharedKeyResult where
  status : Nat
  s : List Nat

/-- Result of `sgx_rijndael128GCM_decrypt`: the status and the bytes written
to the destination. -/
structure GcmResult where
  status : Nat
  written : List Nat

/-- Result of `wasmModuleMalloc`: the sandbox offset and whether the native
pointer is non-null. -/
structure MallocResult where
  wasmOffset : Nat
  nativePtrValid : Bool

/-- The collaborators of the engine: the untrusted host (two OCalls), the SGX
SDK primitives and the sandbox allocator. A run makes each OCall once, so the
answer of the host to it is a value; the primitives are functions of their
inputs. The GCM primitive takes the key, the ciphertext, the IV and the tag,
the additional data being empty. -/
structure Platform where
  ocallAttGetQETargetInfo : QETargetInfoResult
  sgx_create_report : List Nat → List Nat → CreateReportResult
  ocallAttValidateQuote : ValidateQuoteResult
  sgx_ecc256_compute_shared_dhkey : List Nat → FaasmPublicKey → SharedKeyResult
  sgx_rijndael128GCM_decrypt : List Nat → List Nat → List Nat → List Nat → GcmResult
  wasmModuleMalloc : Nat → MallocResult

/-- The calls and writes of one run, in order. -/
inductive Event where
  | getQETargetInfo
  | setError (sgxReturnValue : Nat)
  | createReport (targetInfo reportData : List Nat) (status : Nat)
  | validateQuote (report : SgxReport)
  | computeSharedKey (privKey gx gy : List Nat) (status : Nat) (s : List Nat)
  | gcmDecrypt (key cipherText iv tag : List Nat) (status : Nat) (plainText : List Nat)
  | malloc (size : Nat)
  | copyToSandbox (wasmOffset : Nat) (bytes : List Nat)
  | freeXfer
  | writeJwtPtr (value : Nat)
  | writeJwtSize (value : Int)
deriving DecidableEq, Repr

/-- The errors that are logged before a plain `return`. -/
inductive LoggedError where
  | gettingQEInfo
  | reportInvalidParameter
  | reportOther
  | validatingQuote
deriving DecidableEq, Repr

/-- The exceptions raised through `doThrowException`, by their message:
"Error deriving shared key after key exchange", "JWE not large enough"
(`MalformedJwe`), "Error decrypting JWE" (`AttestationRejected`) and
"Error allocating memory in module!". -/
inductive Exc where
  | derivingSharedKey
  | jweNotLargeEnough
  | decryptingJwe
  | allocatingMemory
deriving DecidableEq, Repr

/-- How a run of the wrapper ends: at line 220, at a `return` that follows an
error log, in an exception, in a failed `assert`, or in a read outside an
object, after which the C++ program has no defined behaviour. -/
inductive Outcome where
  | completed
  | returnedAfterError (e : LoggedError)
  | threw (e : Exc)
  | assertionFailed
  | undefinedRead
deriving DecidableEq, Repr

/-- The running state: the module, the events so far and the exception code
left by `SET_ERROR`. -/
structure St where
  module : EnclaveWasmModule
  trace : List Event
  curException : Option Nat

/-- The observable result of a run. -/
structure Run where
  outcome : Outcome
  trace : List Event
  module : EnclaveWasmModule
  curException : Option Nat
  jwtPtr : Option Nat
  jwtSize : Option Int
  sandboxBuf : Option (Nat × List Nat)

/-- A run that ends without a sandbox buffer and with both out slots unwritten. -/
def St.stop (s : St) (o : Outcome) : Run :=
  { outcome := o, trace := s.trace, module := s.module, curException := s.curException,
    jwtPtr := none, jwtSize := none, sandboxBuf := none }

/-- Append events to the trace. -/
def St.log (s : St) (es : List Event) : St :=
  { s with trace := s.trace ++ es }

/-- Modelled from the spec: the macro `SET_ERROR` of `native.h` is not among
the sources. It leaves an exception code for the sandbox in the module
instance; it is a statement of the branch that contains it, after which the
wrapper goes on with the next statement. -/
def SET_ERROR (s : St) (sgxReturnValue : Nat) : St :=
  { s with trace := s.trace ++ [Event.setError sgxReturnValue],
           curException := some sgxReturnValue }

/-- Modelled from the spec: `EnclaveWasmModule::doThrowException` is not among
the sources. It aborts the operation: the exception is thrown into the sandbox
and no later statement of the wrapper runs. -/
def doThrowException (s : St) (e : Exc) : Run :=
  s.stop (Outcome.threw e)

/-- A buffer after `data` has been written at its start. -/
def overwrite (buf data : List Nat) : List Nat :=
  data.take buf.length ++ buf.drop data.length

/-- The string `jweBase64` (lines 110-111): the first `jwtResponseSize` bytes
at `dataXferPtr`. -/
def jweBase64 (mem : Mem) (jwtResponseSize : Int) : List Nat :=
  readMem mem 0 jwtResponseSize.toNat

/-- The `size_t` value `pubKeySize` (line 109). -/
def pubKeySize (dataXferSize : Nat) (jwtResponseSize : Int) : Int :=
  toSizeT ((dataXferSize : Int) - jwtResponseSize)

/-- The byte count given to the constructor of `serverPubKeyBase64` (line 114):
`dataXferSize + jwtResponseSize + pubKeySize`, in `size_t`. -/
def serverPubKeyCount (dataXferSize : Nat) (jwtResponseSize : Int) : Nat :=
  (toSizeT ((dataXferSize : Int) + jwtResponseSize + pubKeySize dataXferSize jwtResponseSize)).toNat

/-- The string `serverPubKeyBase64` (lines 112-114), read from
`dataXferPtr + jwtResponseSize`. -/
def serverPubKeyBase64 (mem : Mem) (dataXferSize : Nat) (jwtResponseSize : Int) : List Nat :=
  readMem mem jwtResponseSize.toNat (serverPubKeyCount dataXferSize jwtResponseSize)

/-- Lines 197-219: allocate the sandbox buffer, copy the JWT, release the
transfer slot and write the two out slots. -/
def publishJwt (p : Platform) (s : St) (jwtResponseSize : Int) (jwt : List Nat) : Run :=
  let a := p.wasmModuleMalloc jwt.length
  let s1 := s.log [Event.malloc jwt.length]
  if a.wasmOffset = 0 ∨ a.nativePtrValid = false then
    doThrowException s1 Exc.allocatingMemory
  else
    { outcome := Outcome.completed,
      trace := s1.trace ++ [Event.copyToSandbox a.wasmOffset jwt, Event.freeXfer,
        Event.writeJwtPtr a.wasmOffset, Event.writeJwtSize jwtResponseSize],
      module := { s1.module with dataXferPtr := none, dataXferSize := 0 },
      curException := s1.curException,
      jwtPtr := some a.wasmOffset,
      jwtSize := some jwtResponseSize,
      sandboxBuf := some (a.wasmOffset, jwt) }

/-- Lines 145-196: decode the JWE, check its length, split it and decrypt it
with the truncated shared key. -/
def decryptJwe (p : Platform) (s : St) (jwtResponseSize : Int) (jweB64 : List Nat)
    (sharedKey : List Nat) : Run :=
  let jweRaw := base64Decode jweB64
  if jweRaw.length < SGX_AESGCM_IV_SIZE + SGX_AESGCM_MAC_SIZE then
    doThrowException s Exc.jweNotLargeEnough
  else
    let iv := jweRaw.take SGX_AESGCM_IV_SIZE
    let cipherTextLen := jweRaw.length - SGX_AESGCM_IV_SIZE - SGX_AESGCM_MAC_SIZE
    let cipherText := (jweRaw.drop SGX_AESGCM_IV_SIZE).take (cipherTextLen % 2 ^ 32)
    let tag := (jweRaw.drop (jweRaw.length - SGX_AESGCM_MAC_SIZE)).take SGX_AESGCM_MAC_SIZE
    let aesKey := sharedKey.take SGX_AESGCM_KEY_SIZE
    let g := p.sgx_rijndael128GCM_decrypt aesKey cipherText iv tag
    let plainText := overwrite (List.replicate cipherTextLen 0) g.written
    let s1 := s.log [Event.gcmDecrypt aesKey cipherText iv tag g.status plainText]
    if g.status ≠ SGX_SUCCESS then
      doThrowException s1 Exc.decryptingJwe
    else
      publishJwt p s1 jwtResponseSize plainText

/-- Lines 109-143: read the two strings from the transfer slot, decode the
server public key, derive the shared key and reverse it. A null transfer
pointer, a negative `jwtResponseSize` and a decoded key shorter than the 64
bytes that the two `memcpy` read are reads outside an object. -/
def deriveSharedKey (p : Platform) (s : St) (jwtResponseSize : Int) : Run :=
  match s.module.dataXferPtr with
  | none => s.stop Outcome.undefinedRead
  | some mem =>
    if jwtResponseSize < 0 then s.stop Outcome.undefinedRead
    else
      let jweB64 := jweBase64 mem jwtResponseSize
      let serverPubKeyRaw :=
        base64Decode (serverPubKeyBase64 mem s.module.dataXferSize jwtResponseSize)
      if serverPubKeyRaw.length < 64 then s.stop Outcome.undefinedRead
      else
        let serverPubKey : FaasmPublicKey :=
          { gx := serverPubKeyRaw.take 32, gy := (serverPubKeyRaw.drop 32).take 32 }
        let k := p.sgx_ecc256_compute_shared_dhkey s.module.privKey serverPubKey
        let s1 := s.log [Event.computeSharedKey s.module.privKey serverPubKey.gx
          serverPubKey.gy k.status k.s]
        if k.status ≠ SGX_SUCCESS then
          doThrowException s1 Exc.derivingSharedKey
        else
          decryptJwe p s1 jwtResponseSize jweB64 k.s.reverse

/-- Lines 94-107: the two assertions on the transfer slot, which end the run
when they fail, and the OCall that submits the report. `jwtResponseSize` is an
`int32_t`. -/
def submitQuote (p : Platform) (s : St) (enclaveReport : SgxReport) : Run :=
  if s.module.dataXferPtr.isSome ∨ s.module.dataXferSize ≠ 0 then
    s.stop Outcome.assertionFailed
  else
    let q := p.ocallAttValidateQuote
    let s1 : St :=
      { s with trace := s.trace ++ [Event.validateQuote enclaveReport],
               module := { s.module with dataXferPtr := q.dataXferPtr,
                                         dataXferSize := q.dataXferSize } }
    if q.sgxReturnValue ≠ SGX_SUCCESS then
      deriveSharedKey p (SET_ERROR s1 q.sgxReturnValue) (wrapInt32 q.jwtResponseSize)
    else if q.returnValue ≠ 0 then
      s1.stop (Outcome.returnedAfterError LoggedError.validatingQuote)
    else
      deriveSharedKey p s1 (wrapInt32 q.jwtResponseSize)

/-- Lines 55-88: bind the public key into the report data, create the report,
cache it when no report is cached, then look at the status. The comparison of
the two `sizeof` of line 58 only logs. -/
def generateReport (p : Platform) (s : St) (targetInfo : List Nat) : Run :=
  let enclaveData := s.module.pubKey.gx ++ s.module.pubKey.gy
  let c := p.sgx_create_report targetInfo enclaveData
  let s1 := s.log [Event.createReport targetInfo enclaveData c.status]
  let s2 : St :=
    if s1.module.cachedSgxReport.isNone then
      { s1 with module := { s1.module with cachedSgxReport := some c.report } }
    else s1
  if c.status = SGX_SUCCESS then
    submitQuote p s2 c.report
  else if c.status = SGX_ERROR_INVALID_PARAMETER then
    s2.stop (Outcome.returnedAfterError LoggedError.reportInvalidParameter)
  else
    s2.stop (Outcome.returnedAfterError LoggedError.reportOther)

/-- The function `accless_get_attestation_jwt_wrapper` (lines 26-220), run on
the module `m` with the collaborators `p`. -/
def accless_get_attestation_jwt_wrapper (p : Platform) (m : EnclaveWasmModule) : Run :=
  let t := p.ocallAttGetQETargetInfo
  let s0 : St := { module := m, trace := [Event.getQETargetInfo], curException := none }
  if t.sgxReturnValue ≠ SGX_SUCCESS then
    generateReport p (SET_ERROR s0 t.sgxReturnValue) t.targetInfo
  else if t.returnValue ≠ 0 then
    s0.stop (Outcome.returnedAfterError LoggedError.gettingQEInfo)
  else
    generateReport p s0 t.targetInfo

/-- The slice `xs[a..b)`. -/
def slice (xs : List Nat) (a b : Nat) : List Nat := (xs.drop a).take (b - a)

/-! ## Vocabulary of the proofs -/

/-- The events of the steps that precede the reading of the transfer slot. -/
def Event.isEarly : Event → Bool
  | Event.getQETargetInfo => true
  | Event.setError _ => true
  | Event.createReport _ _ _ => true
  | Event.validateQuote _ => true
  | _ => false

/-- The outcomes of a run that ends before the transfer slot is read. -/
def Outcome.isEarly : Outcome → Bool
  | Outcome.assertionFailed => true
  | Outcome.returnedAfterError _ => true
  | _ => false

/-- The run ends in the state `s` before the transfer slot is read. -/
def StopsEarly (r : Run) (s : St) (o : Outcome) : Prop :=
  r = s.stop o ∧ (∀ e ∈ s.trace, e.isEarly = true) ∧ o.isEarly = true

/-- The run reaches line 109 in the state `s`, with the transfer slot as the
host left it. -/
def ReachesTransfer (p : Platform) (privKey : List Nat) (r : Run) (s : St) : Prop :=
  r = deriveSharedKey p s (wrapInt32 p.ocallAttValidateQuote.jwtResponseSize) ∧
  (∀ e ∈ s.trace, e.isEarly = true) ∧ s.module.privKey = privKey ∧
  s.module.dataXferPtr = p.ocallAttValidateQuote.dataXferPtr ∧
  s.module.dataXferSize = p.ocallAttValidateQuote.dataXferSize

/-- The bytes `bytes` with bit `n` flipped, bit `n` being bit `n % 8` of byte
`n / 8`. -/
def flipBit (bytes : List Nat) (n : Nat) : List Nat :=
  bytes.set (n / 8) (bytes.getD (n / 8) 0 ^^^ 2 ^ (n % 8))

/-- The run ends as `AttestationRejected`: the exception "Error decrypting JWE"
is thrown, no sandbox buffer is allocated or written, and neither out slot is
written. -/
def Run.attestationRejected (r : Run) : Prop :=
  r.outcome = Outcome.threw Exc.decryptingJwe ∧
  (∀ n, Event.malloc n ∉ r.trace) ∧
  (∀ o b, Event.copyToSandbox o b ∉ r.trace) ∧
  r.sandboxBuf = none ∧ r.jwtPtr = none ∧ r.jwtSize = none

/-! ## Concrete modules and platforms -/

/-- Memory that holds the character `A` at the first `n` offsets and zero
bytes after them. -/
def memA (n : Nat) : Mem := fun i => if i < n then 65 else 0

/-- A freshly booted module: no cached report, empty transfer slot. -/
def freshModule : EnclaveWasmModule :=
  { pubKey := { gx := List.replicate 32 1, gy := List.replicate 32 2 },
    privKey := List.replicate 32 3,
    cachedSgxReport := none, dataXferPtr := none, dataXferSize := 0, acclessEnabled := true }

/-- A cooperative platform. The transfer slot holds 40 characters of base64
JWE (30 zero bytes: IV, two bytes of ciphertext, tag) followed by 88
characters of base64 server key; the shared secret is `0, 1, .., 31`; GCM
accepts the all-zero tag and writes the two bytes `JW`. -/
def goodPlatform : Platform :=
  { ocallAttGetQETargetInfo := { sgxReturnValue := 0, returnValue := 0, targetInfo := [] },
    sgx_create_report := fun _ d =>
      { status := 0, report := { mrEnclave := List.replicate 32 7, reportData := d } },
    ocallAttValidateQuote :=
      { sgxReturnValue := 0, returnValue := 0, jwtResponseSize := 40,
        dataXferPtr := some (memA 128), dataXferSize := 128 },
    sgx_ecc256_compute_shared_dhkey := fun _ _ => { status := 0, s := List.range 32 },
    sgx_rijndael128GCM_decrypt := fun _ _ _ t =>
      if t = List.replicate 16 0 then { status := 0, written := [74, 87] }
      else { status := 0x3001, written := [] },
    wasmModuleMalloc := fun _ => { wasmOffset := 1024, nativePtrValid := true } }

/-- The cooperative platform with a GCM primitive whose only valid tag is
`01 00 .. 00`: the all-zero tag of the JWE in the transfer slot is that tag
with the lowest bit of its first byte flipped. -/
def tamperedTagPlatform : Platform :=
  { goodPlatform with
    sgx_rijndael128GCM_decrypt := fun _ _ _ t =>
      if t = 1 :: List.replicate 15 0 then { status := 0, written := [74, 87] }
      else { status := SGX_ERROR_MAC_MISMATCH, written := [] } }

/-- A platform whose transfer slot holds four characters of base64 JWE (three
bytes once decoded) followed by 88 characters of base64 server key. -/
def shortJwePlatform : Platform :=
  { goodPlatform with
    ocallAttValidateQuote :=
      { sgxReturnValue := 0, returnValue := 0, jwtResponseSize := 4,
        dataXferPtr := some (memA 92), dataXferSize := 92 } }

/-- The platform `shortJwePlatform` with a server key that the ECDH primitive
rejects. -/
def shortJweBadKeyPlatform : Platform :=
  { shortJwePlatform with
    sgx_ecc256_compute_shared_dhkey := fun _ _ =>
      { status := SGX_ERROR_INVALID_PARAMETER, s := List.replicate 32 0 } }

/-- A platform whose transfer buffer has `jwtResponseSize + 64` bytes: 40
characters of base64 JWE and a raw 64-byte server key made of the byte `0x41`;
the memory after the buffer holds the same byte. -/
def rawKeyPlatform : Platform :=
  { goodPlatform with
    ocallAttValidateQuote :=
      { sgxReturnValue := 0, returnValue := 0, jwtResponseSize := 40,
        dataXferPtr := some (fun _ => 65), dataXferSize := 40 + 64 } }

/-- A platform on which `sgx_create_report` fails with
`SGX_ERROR_INVALID_PARAMETER` and leaves an empty report. -/
def reportFailsPlatform : Platform :=
  { goodPlatform with
    sgx_create_report := fun _ _ =>
      { status := SGX_ERROR_INVALID_PARAMETER, report := { mrEnclave := [], reportData := [] } } }

/-- A platform on which `ocallAttGetQETargetInfo` succeeds as a transition and
returns the inner value 1. -/
def qeInnerFailsPlatform : Platform :=
  { goodPlatform with
    ocallAttGetQETargetInfo := { sgxReturnValue := 0, returnValue := 1, targetInfo := [] } }

/-- A platform on which the transition `ocallAttGetQETargetInfo` itself fails
with `SGX_ERROR_UNEXPECTED`. -/
def qeTransportFailsPlatform : Platform :=
  { goodPlatform with
    ocallAttGetQETargetInfo :=
      { sgxReturnValue := SGX_ERROR_UNEXPECTED, returnValue := 0, targetInfo := [] } }

/-- A platform on which `ocallAttValidateQuote` succeeds as a transition and
returns the inner value 1. -/
def quoteInnerFailsPlatform : Platform :=
  { goodPlatform with
    ocallAttValidateQuote :=
      { sgxReturnValue := 0, returnValue := 1, jwtResponseSize := 40,
        dataXferPtr := some (memA 128), dataXferSize := 128 } }

/-- A platform on which the transition `ocallAttValidateQuote` itself fails
with `SGX_ERROR_UNEXPECTED`, the transfer slot being filled all the same. -/
def quoteTransportFailsPlatform : Platform :=
  { goodPlatform with
    ocallAttValidateQuote :=
      { sgxReturnValue := SGX_ERROR_UNEXPECTED, returnValue := 0, jwtResponseSize := 40,
        dataXferPtr := some (memA 128), dataXferSize := 128 } }

/-! ## attestation.cpp: `accless_get_mrenclave_wrapper` and `accless_is_enabled_wrapper` -/

/-- Size in bytes of `sgx_measurement_t`, a SHA-256 digest. -/
def SGX_MEASUREMENT_SIZE : Nat := 32

/-- How a run of `accless_get_mrenclave_wrapper` ends: after the `memcpy`, in
the exception "Cannot find cached SGX report!" (`NoCachedReport`), or in a
failed `assert`. -/
inductive MrEnclaveOutcome where
  | copied
  | threwNoCachedReport
  | assertionFailed
deriving DecidableEq, Repr

/-- The result of a run of `accless_get_mrenclave_wrapper`: how it ends and the
bytes at `buf` after it. -/
structure MrEnclaveRun where
  outcome : MrEnclaveOutcome
  buf : List Nat
deriving DecidableEq, Repr

/-- The function `accless_get_mrenclave_wrapper` (lines 222-243), with `buf`
the bytes at the pointer `buf`. Both assertions compare `bufSize` with 32 and
end the run when they fail; `doThrowException` aborts the wrapper, as it is
modelled above; the `memcpy` writes the 32 bytes of `body.mr_enclave` at the
start of `buf`. -/
def accless_get_mrenclave_wrapper (m : EnclaveWasmModule) (buf : List Nat) (bufSize : Int) :
    MrEnclaveRun :=
  if bufSize ≠ (SGX_MEASUREMENT_SIZE : Int) then
    { outcome := MrEnclaveOutcome.assertionFailed, buf := buf }
  else
    match m.cachedSgxReport with
    | none => { outcome := MrEnclaveOutcome.threwNoCachedReport, buf := buf }
    | some report =>
      { outcome := MrEnclaveOutcome.copied,
        buf := report.mrEnclave.take SGX_MEASUREMENT_SIZE ++ buf.drop SGX_MEASUREMENT_SIZE }

/-- The function `accless_is_enabled_wrapper` (lines 245-251):
`isAcclessEnabled() ? 0 : 1`, the accessor reading the flag of the module. -/
def accless_is_enabled_wrapper (m : EnclaveWasmModule) : Int :=
  if m.acclessEnabled then 0 else 1

/-! ## AttestationServiceClient.cpp: the endpoint of the attestation service -/

/-- The exceptions of the client: `std::invalid_argument("Invalid ip:port format")`
(`BadAsEndpoint`) and `std::runtime_error("Error validaing enclave quote")`. -/
inductive AsError where
  | invalidArgument
  | runtimeError
deriving DecidableEq, Repr

/-- Index of the first occurrence of `c`, counted from `i`; `none` stands for
`std::string::npos`. -/
def findChar (c : Char) : List Char → Nat → Option Nat
  | [], _ => none
  | d :: ds, i => if d = c then some i else findChar c ds (i + 1)

/-- The function `splitIpPort` (lines 151-163). When a colon is found the
input is not empty, so `input.size() - 1` does not wrap. -/
def splitIpPort (input : List Char) : Except AsError (List Char × List Char) :=
  match findChar ':' input 0 with
  | none => Except.error AsError.invalidArgument
  | some colonPos =>
    if colonPos = 0 ∨ colonPos = input.length - 1 then
      Except.error AsError.invalidArgument
    else
      Except.ok (input.take colonPos, input.drop (colonPos + 1))

/-- The assignment of `host` in `attestEnclave` (lines 175-178): the configured
URL without a leading `https://`. -/
def stripHttps (attestationServiceUrl : List Char) : List Char :=
  if "https://".toList.isPrefixOf attestationServiceUrl then
    attestationServiceUrl.drop "https://".toList.length
  else attestationServiceUrl

/-- The status and the body of an HTTP response. -/
structure HttpResponse where
  status : Nat
  body : List Char
deriving DecidableEq, Repr

/-- The result of a run of `attestEnclave`: the `(ip, port)` of the requests
that were made and the returned body or the exception. -/
structure AttestRun where
  requests : List (List Char × List Char)
  result : Except AsError (List Char)

/-- The function `AttestationServiceClient::attestEnclave` (lines 164-192) on
the configured URL, with the network round trip `doRequest` as a parameter. -/
def attestEnclave (doRequest : List Char → List Char → HttpResponse)
    (attestationServiceUrl : List Char) : AttestRun :=
  match splitIpPort (stripHttps attestationServiceUrl) with
  | Except.error e => { requests := [], result := Except.error e }
  | Except.ok (ip, port) =>
    let response := doRequest ip port
    if response.status ≠ 200 then
      { requests := [(ip, port)], result := Except.error AsError.runtimeError }
    else
      { requests := [(ip, port)], result := Except.ok response.body }

/-- A platform whose transfer buffer has `jwtResponseSize + 64` bytes, all of
them the byte `0x41`, and is followed by zero bytes. -/
def rawKeyZeroTailPlatform : Platform :=
  { goodPlatform with
    ocallAttValidateQuote :=
      { sgxReturnValue := 0, returnValue := 0, jwtResponseSize := 40,
        dataXferPtr := some (memA 104), dataXferSize := 40 + 64 } }

/-- An attestation service that answers `200` with the body `ok`. -/
def okService : List Char → List Char → HttpResponse :=
  fun _ _ => { status := 200, body := "ok".toList }

/-! ## Lemmas on the decoder -/


theorem base64Find_base64Char : ∀ i, i < 64 → base64Find (base64Char i) = i := by decide

theorem isBase64_base64Char : ∀ i, i < 64 → isBase64 (base64Char i) = true := by decide

theorem nextVal_low (val : Int) (c : Nat) (h : base64Find c < 64) :
    nextVal val c % 4096 = (val % 64) * 64 + (base64Find c : Int) := by
  unfold nextVal wrapInt32 toSizeT
  omega

/-- The accumulator does wrap: one more character after `val = 2^31 - 1` gives
a negative `val`. -/
theorem nextVal_wraps : nextVal (2 ^ 31 - 1) 66 = -63 := by decide

theorem outByte_four (v : Int) : outByte v 4 = ((v % 4096) / 16 % 256).toNat := by
  unfold outByte
  have : (4 : Int).toNat = 4 := rfl
  rw [this]
  congr 1
  omega

theorem outByte_two (v : Int) : outByte v 2 = ((v % 4096) / 4 % 256).toNat := by
  unfold outByte
  have : (2 : Int).toNat = 2 := rfl
  rw [this]
  congr 1
  omega

theorem outByte_zero (v : Int) : outByte v 0 = ((v % 4096) % 256).toNat := by
  unfold outByte
  have : (0 : Int).toNat = 0 := rfl
  rw [this]
  congr 1
  omega

theorem loop_step (c : Nat) (cs : List Nat) (val valb : Int) (out : List Nat)
    (h : isBase64 c = true) :
    base64DecodeLoop (c :: cs) val valb out =
      if 0 ≤ valb + 6 then
        base64DecodeLoop cs (nextVal val c) (valb + 6 - 8)
          (out ++ [outByte (nextVal val c) (valb + 6)])
      else base64DecodeLoop cs (nextVal val c) (valb + 6) out := by
  simp [base64DecodeLoop, h]

theorem loop_halt (tail : List Nat) (val valb : Int) (out : List Nat)
    (h : ∀ c ∈ tail.head?, isBase64 c = false) :
    base64DecodeLoop tail val valb out = out := by
  cases tail with
  | nil => simp [base64DecodeLoop]
  | cons c cs =>
    have hc : isBase64 c = false := h c (by simp)
    simp [base64DecodeLoop, hc]

theorem nextVal_char (val : Int) (i : Nat) (hi : i < 64) :
    nextVal val (base64Char i) % 4096 = (val % 64) * 64 + (i : Int) := by
  have h := nextVal_low val (base64Char i) (by rw [base64Find_base64Char i hi]; exact hi)
  rw [base64Find_base64Char i hi] at h
  exact h

theorem nextVal_char_mod (val : Int) (i : Nat) (hi : i < 64) :
    nextVal val (base64Char i) % 64 = (i : Int) := by
  have h := nextVal_char val i hi
  omega

/-- First character of a group (`valb = -8`): nothing is written. -/
theorem loop_phase0 (i : Nat) (hi : i < 64) (cs : List Nat) (val : Int) (out : List Nat) :
    base64DecodeLoop (base64Char i :: cs) val (-8) out =
      base64DecodeLoop cs (nextVal val (base64Char i)) (-2) out := by
  rw [loop_step _ _ _ _ _ (isBase64_base64Char i hi), if_neg (by omega)]
  norm_num

/-- Second character of a group (`valb = -2`): the first byte is written. -/
theorem loop_phase1 (i j : Nat) (hi : i < 64) (cs : List Nat) (val : Int)
    (out : List Nat) (hv : val % 64 = (j : Int)) :
    base64DecodeLoop (base64Char i :: cs) val (-2) out =
      base64DecodeLoop cs (nextVal val (base64Char i)) (-4) (out ++ [j * 4 + i / 16]) := by
  rw [loop_step _ _ _ _ _ (isBase64_base64Char i hi), if_pos (by omega)]
  have e := nextVal_char val i hi
  have hb : outByte (nextVal val (base64Char i)) (-2 + 6) = j * 4 + i / 16 := by
    have : (-2 + 6 : Int) = 4 := by norm_num
    rw [this, outByte_four]
    omega
  rw [hb]
  norm_num

/-- Third character of a group (`valb = -4`): the second byte is written. -/
theorem loop_phase2 (i j : Nat) (hi : i < 64) (cs : List Nat) (val : Int)
    (out : List Nat) (hv : val % 64 = (j : Int)) :
    base64DecodeLoop (base64Char i :: cs) val (-4) out =
      base64DecodeLoop cs (nextVal val (base64Char i)) (-6) (out ++ [j % 16 * 16 + i / 4]) := by
  rw [loop_step _ _ _ _ _ (isBase64_base64Char i hi), if_pos (by omega)]
  have e := nextVal_char val i hi
  have hb : outByte (nextVal val (base64Char i)) (-4 + 6) = j % 16 * 16 + i / 4 := by
    have : (-4 + 6 : Int) = 2 := by norm_num
    rw [this, outByte_two]
    omega
  rw [hb]
  norm_num

/-- Fourth character of a group (`valb = -6`): the third byte is written. -/
theorem loop_phase3 (i j : Nat) (hi : i < 64) (cs : List Nat) (val : Int)
    (out : List Nat) (hv : val % 64 = (j : Int)) :
    base64DecodeLoop (base64Char i :: cs) val (-6) out =
      base64DecodeLoop cs (nextVal val (base64Char i)) (-8) (out ++ [j % 4 * 64 + i]) := by
  rw [loop_step _ _ _ _ _ (isBase64_base64Char i hi), if_pos (by omega)]
  have e := nextVal_char val i hi
  have hb : outByte (nextVal val (base64Char i)) (-6 + 6) = j % 4 * 64 + i := by
    have : (-6 + 6 : Int) = 0 := by norm_num
    rw [this, outByte_zero]
    omega
  rw [hb]
  norm_num

theorem loop_encode (x : List Nat) :
    (∀ b ∈ x, b < 256) → ∀ (tail : List Nat), (∀ c ∈ tail.head?, isBase64 c = false) →
    ∀ (val : Int) (out : List Nat),
      base64DecodeLoop (base64EncodeNoPad x ++ tail) val (-8) out = out ++ x := by
  induction x using base64EncodeNoPad.induct with
  | case1 =>
    intro _ tail ht val out
    simp [base64EncodeNoPad, loop_halt tail val (-8) out ht]
  | case2 a =>
    intro hx tail ht val out
    have ha : a < 256 := hx a (by simp)
    have h0 : a / 4 < 64 := by omega
    have h1 : a % 4 * 16 < 64 := by omega
    simp only [base64EncodeNoPad, List.cons_append, List.nil_append]
    rw [loop_phase0 _ h0, loop_phase1 _ (a / 4) h1 _ _ _ (nextVal_char_mod _ _ h0),
      loop_halt tail _ _ _ ht]
    have : a / 4 * 4 + a % 4 * 16 / 16 = a := by omega
    rw [this]
  | case3 a b =>
    intro hx tail ht val out
    have ha : a < 256 := hx a (by simp)
    have hb : b < 256 := hx b (by simp)
    have h0 : a / 4 < 64 := by omega
    have h1 : a % 4 * 16 + b / 16 < 64 := by omega
    have h2 : b % 16 * 4 < 64 := by omega
    simp only [base64EncodeNoPad, List.cons_append, List.nil_append]
    rw [loop_phase0 _ h0, loop_phase1 _ (a / 4) h1 _ _ _ (nextVal_char_mod _ _ h0),
      loop_phase2 _ (a % 4 * 16 + b / 16) h2 _ _ _ (nextVal_char_mod _ _ h1),
      loop_halt tail _ _ _ ht]
    have e1 : a / 4 * 4 + (a % 4 * 16 + b / 16) / 16 = a := by omega
    have e2 : (a % 4 * 16 + b / 16) % 16 * 16 + b % 16 * 4 / 4 = b := by omega
    rw [e1, e2]
    simp
  | case4 a b c rest ih =>
    intro hx tail ht val out
    have ha : a < 256 := hx a (by simp)
    have hb : b < 256 := hx b (by simp)
    have hc : c < 256 := hx c (by simp)
    have h0 : a / 4 < 64 := by omega
    have h1 : a % 4 * 16 + b / 16 < 64 := by omega
    have h2 : b % 16 * 4 + c / 64 < 64 := by omega
    have h3 : c % 64 < 64 := by omega
    simp only [base64EncodeNoPad, List.cons_append]
    rw [loop_phase0 _ h0, loop_phase1 _ (a / 4) h1 _ _ _ (nextVal_char_mod _ _ h0),
      loop_phase2 _ (a % 4 * 16 + b / 16) h2 _ _ _ (nextVal_char_mod _ _ h1),
      loop_phase3 _ (b % 16 * 4 + c / 64) h3 _ _ _ (nextVal_char_mod _ _ h2),
      ih (fun y hy => hx y (by simp [hy])) tail ht]
    have e1 : a / 4 * 4 + (a % 4 * 16 + b / 16) / 16 = a := by omega
    have e2 : (a % 4 * 16 + b / 16) % 16 * 16 + (b % 16 * 4 + c / 64) / 4 = b := by omega
    have e3 : (b % 16 * 4 + c / 64) % 4 * 64 + c % 64 = c := by omega
    rw [e1, e2, e3]
    simp

theorem padding_head (n : Nat) : ∀ c ∈ (base64Padding n).head?, isBase64 c = false := by
  intro c hc
  unfold base64Padding at hc
  rcases Nat.eq_zero_or_pos ((3 - n % 3) % 3) with h | h
  · rw [h] at hc; simp at hc
  · obtain ⟨k, hk⟩ : ∃ k, (3 - n % 3) % 3 = k + 1 := ⟨(3 - n % 3) % 3 - 1, by omega⟩
    rw [hk, List.replicate_succ] at hc
    simp at hc
    subst hc
    decide

theorem isBase64_iff_mem (c : Nat) : isBase64 c = true ↔ c ∈ base64Chars := by
  by_cases h : c < 128
  · have key : ∀ d, d < 128 → (isBase64 d = true ↔ d ∈ base64Chars) := by decide
    exact key c h
  · have hlt : ∀ d ∈ base64Chars, d < 128 := by decide
    constructor
    · intro hc
      simp only [isBase64, isalnum, Bool.or_eq_true, Bool.and_eq_true, decide_eq_true_eq,
        beq_iff_eq] at hc
      omega
    · intro hc
      exact absurd (hlt c hc) h

theorem loop_takeWhile (s : List Nat) : ∀ (val valb : Int) (out : List Nat),
    base64DecodeLoop s val valb out = base64DecodeLoop (s.takeWhile isBase64) val valb out := by
  induction s with
  | nil => intro val valb out; rfl
  | cons c cs ih =>
    intro val valb out
    by_cases hc : isBase64 c = true
    · rw [List.takeWhile_cons_of_pos hc, loop_step _ _ _ _ _ hc, loop_step _ _ _ _ _ hc]
      split_ifs
      · exact ih _ _ _
      · exact ih _ _ _
    · rw [List.takeWhile_cons_of_neg hc]
      simp [base64DecodeLoop, hc]

theorem segment_le_takeWhile (s q : List Nat) (hq : q <+: s) (hall : ∀ c ∈ q, isBase64 c = true) :
    q <+: s.takeWhile isBase64 := by
  induction s generalizing q with
  | nil =>
    have : q = [] := List.prefix_nil.mp hq
    subst this
    exact List.nil_prefix
  | cons c cs ih =>
    cases q with
    | nil => exact List.nil_prefix
    | cons d ds =>
      obtain ⟨hd, hds⟩ := List.cons_prefix_cons.mp hq
      subst hd
      have hd : isBase64 d = true := hall d (by simp)
      rw [List.takeWhile_cons_of_pos hd]
      exact List.cons_prefix_cons.mpr ⟨rfl, ih ds hds (fun x hx => hall x (by simp [hx]))⟩

theorem longest_eq_takeWhile (s p : List Nat) (hp : p <+: s)
    (halpha : ∀ c ∈ p, c ∈ base64Chars)
    (hmax : ∀ q : List Nat, q <+: s → (∀ c ∈ q, c ∈ base64Chars) → q.length ≤ p.length) :
    p = s.takeWhile isBase64 := by
  have h1 : p <+: s.takeWhile isBase64 :=
    segment_le_takeWhile s p hp (fun c hc => (isBase64_iff_mem c).mpr (halpha c hc))
  have h2 : (s.takeWhile isBase64).length ≤ p.length :=
    hmax _ (List.takeWhile_prefix _) (fun c hc => (isBase64_iff_mem c).mp (List.mem_takeWhile_imp hc))
  exact List.IsPrefix.eq_of_length_le h1 h2

theorem takeWhile_longest (s : List Nat) :
    s.takeWhile isBase64 <+: s ∧ (∀ c ∈ s.takeWhile isBase64, c ∈ base64Chars) ∧
    ∀ q : List Nat, q <+: s → (∀ c ∈ q, c ∈ base64Chars) →
      q.length ≤ (s.takeWhile isBase64).length :=
  ⟨List.takeWhile_prefix _,
   fun c hc => (isBase64_iff_mem c).mp (List.mem_takeWhile_imp hc),
   fun q hq hall => (segment_le_takeWhile s q hq
     (fun c hc => (isBase64_iff_mem c).mpr (hall c hc))).length_le⟩

theorem loop_length_le (s : List Nat) : ∀ (val valb : Int) (out : List Nat),
    (base64DecodeLoop s val valb out).length ≤ out.length + s.length := by
  induction s with
  | nil => intro val valb out; simp [base64DecodeLoop]
  | cons c cs ih =>
    intro val valb out
    by_cases hc : isBase64 c = true
    · rw [loop_step _ _ _ _ _ hc]
      split_ifs
      · have := ih (nextVal val c) (valb + 6 - 8) (out ++ [outByte (nextVal val c) (valb + 6)])
        simp only [List.length_append, List.length_cons, List.length_nil] at this ⊢
        omega
      · have := ih (nextVal val c) (valb + 6) out
        simp only [List.length_cons]
        omega
    · simp [base64DecodeLoop, hc]

theorem base64Decode_length_le (s : List Nat) : (base64Decode s).length ≤ s.length := by
  have := loop_length_le s 0 (-8) []
  simpa [base64Decode] using this

/-! ## Lemmas on the wrapper -/

theorem early_append (tr : List Event) (e : Event) (hs : ∀ x ∈ tr, x.isEarly = true)
    (he : e.isEarly = true) : ∀ x ∈ tr ++ [e], x.isEarly = true := by
  intro x hx
  simp only [List.mem_append, List.mem_singleton] at hx
  rcases hx with hx | hx
  · exact hs x hx
  · subst hx; exact he

theorem not_mem_of_early (tr : List Event) (hs : ∀ x ∈ tr, x.isEarly = true) (e : Event)
    (he : e.isEarly = false) : e ∉ tr := by
  intro h
  rw [hs e h] at he
  exact Bool.noConfusion he

theorem submitQuote_cases (p : Platform) (s : St) (rep : SgxReport)
    (hs : ∀ e ∈ s.trace, e.isEarly = true) :
    (∃ (s' : St) (o : Outcome), StopsEarly (submitQuote p s rep) s' o) ∨
    (∃ s' : St, ReachesTransfer p s.module.privKey (submitQuote p s rep) s') := by
  unfold submitQuote StopsEarly ReachesTransfer
  simp only []
  have hq := early_append s.trace (Event.validateQuote rep) hs rfl
  split_ifs with h1 h2 h3
  · exact Or.inl ⟨_, _, rfl, hs, rfl⟩
  · exact Or.inr ⟨_, rfl, early_append _ (Event.setError _) hq rfl, rfl, rfl, rfl⟩
  · exact Or.inl ⟨_, _, rfl, hq, rfl⟩
  · exact Or.inr ⟨_, rfl, hq, rfl, rfl, rfl⟩

theorem generateReport_cases (p : Platform) (s : St) (ti : List Nat)
    (hs : ∀ e ∈ s.trace, e.isEarly = true) :
    (∃ (s' : St) (o : Outcome), StopsEarly (generateReport p s ti) s' o) ∨
    (∃ s' : St, ReachesTransfer p s.module.privKey (generateReport p s ti) s') := by
  unfold generateReport
  simp only []
  generalize hs2 : (if (s.log [Event.createReport ti (s.module.pubKey.gx ++ s.module.pubKey.gy)
      (p.sgx_create_report ti (s.module.pubKey.gx ++ s.module.pubKey.gy)).status]).module.cachedSgxReport.isNone
      = true then _ else _ : St) = s2
  have ht : ∀ e ∈ s2.trace, e.isEarly = true := by
    have : s2.trace = s.trace ++ [Event.createReport ti (s.module.pubKey.gx ++ s.module.pubKey.gy)
      (p.sgx_create_report ti (s.module.pubKey.gx ++ s.module.pubKey.gy)).status] := by
      subst hs2; split_ifs <;> rfl
    rw [this]
    exact early_append _ _ hs rfl
  have hk : s2.module.privKey = s.module.privKey := by
    subst hs2; split_ifs <;> rfl
  split_ifs with h1 h2
  · rw [← hk]
    exact submitQuote_cases p s2 _ ht
  · exact Or.inl ⟨_, _, rfl, ht, rfl⟩
  · exact Or.inl ⟨_, _, rfl, ht, rfl⟩

theorem run_cases (p : Platform) (m : EnclaveWasmModule) :
    (∃ (s : St) (o : Outcome), StopsEarly (accless_get_attestation_jwt_wrapper p m) s o) ∨
    (∃ s : St, ReachesTransfer p m.privKey (accless_get_attestation_jwt_wrapper p m) s) := by
  unfold accless_get_attestation_jwt_wrapper
  simp only []
  have h0 : ∀ e ∈ [Event.getQETargetInfo], e.isEarly = true := by
    intro e he; simp at he; subst he; rfl
  split_ifs with h1 h2
  · exact generateReport_cases p (SET_ERROR ⟨m, [Event.getQETargetInfo], none⟩ _) _
      (early_append _ (Event.setError _) h0 rfl)
  · exact Or.inl ⟨_, _, rfl, h0, rfl⟩
  · exact generateReport_cases p ⟨m, [Event.getQETargetInfo], none⟩ _ h0

theorem publishJwt_cases (p : Platform) (s : St) (R : Int) (jwt : List Nat) :
    publishJwt p s R jwt = (s.log [Event.malloc jwt.length]).stop (Outcome.threw Exc.allocatingMemory) ∨
    ∃ off : Nat, off ≠ 0 ∧ off = (p.wasmModuleMalloc jwt.length).wasmOffset ∧
      publishJwt p s R jwt =
        { outcome := Outcome.completed,
          trace := s.trace ++ [Event.malloc jwt.length] ++ [Event.copyToSandbox off jwt,
            Event.freeXfer, Event.writeJwtPtr off, Event.writeJwtSize R],
          module := { s.module with dataXferPtr := none, dataXferSize := 0 },
          curException := s.curException,
          jwtPtr := some off, jwtSize := some R, sandboxBuf := some (off, jwt) } := by
  unfold publishJwt
  simp only []
  split_ifs with h
  · exact Or.inl rfl
  · exact Or.inr ⟨_, fun h0 => h (Or.inl h0), rfl, rfl⟩

theorem decryptJwe_cases (p : Platform) (s : St) (R : Int) (jweB64 key : List Nat) :
    ∃ j : List Nat, j = base64Decode jweB64 ∧
      ((j.length < 28 ∧
          decryptJwe p s R jweB64 key = s.stop (Outcome.threw Exc.jweNotLargeEnough)) ∨
       ∃ (g : GcmResult) (pt : List Nat) (e : Event), 28 ≤ j.length ∧
          g = p.sgx_rijndael128GCM_decrypt (key.take 16)
            ((j.drop 12).take ((j.length - 12 - 16) % 2 ^ 32)) (j.take 12)
            ((j.drop (j.length - 16)).take 16) ∧
          pt = overwrite (List.replicate (j.length - 12 - 16) 0) g.written ∧
          e = Event.gcmDecrypt (key.take 16) ((j.drop 12).take ((j.length - 12 - 16) % 2 ^ 32))
            (j.take 12) ((j.drop (j.length - 16)).take 16) g.status pt ∧
          ((g.status ≠ SGX_SUCCESS ∧
              decryptJwe p s R jweB64 key = (s.log [e]).stop (Outcome.threw Exc.decryptingJwe)) ∨
           (g.status = SGX_SUCCESS ∧
              decryptJwe p s R jweB64 key = publishJwt p (s.log [e]) R pt))) := by
  refine ⟨_, rfl, ?_⟩
  unfold decryptJwe
  simp only [SGX_AESGCM_IV_SIZE, SGX_AESGCM_MAC_SIZE, SGX_AESGCM_KEY_SIZE]
  split_ifs with h1 h2
  · exact Or.inl ⟨by omega, rfl⟩
  · exact Or.inr ⟨_, _, _, by omega, rfl, rfl, rfl, Or.inl ⟨h2, rfl⟩⟩
  · exact Or.inr ⟨_, _, _, by omega, rfl, rfl, rfl, Or.inr ⟨not_not.mp h2, rfl⟩⟩

theorem deriveSharedKey_cases (p : Platform) (s : St) (R : Int) :
    deriveSharedKey p s R = s.stop Outcome.undefinedRead ∨
    ∃ (mem : Mem) (pk : List Nat) (k : SharedKeyResult) (e : Event),
      s.module.dataXferPtr = some mem ∧ 0 ≤ R ∧
      pk = base64Decode (serverPubKeyBase64 mem s.module.dataXferSize R) ∧ 64 ≤ pk.length ∧
      k = p.sgx_ecc256_compute_shared_dhkey s.module.privKey
        { gx := pk.take 32, gy := (pk.drop 32).take 32 } ∧
      e = Event.computeSharedKey s.module.privKey (pk.take 32) ((pk.drop 32).take 32)
        k.status k.s ∧
      ((k.status ≠ SGX_SUCCESS ∧
          deriveSharedKey p s R = (s.log [e]).stop (Outcome.threw Exc.derivingSharedKey)) ∨
       (k.status = SGX_SUCCESS ∧
          deriveSharedKey p s R = decryptJwe p (s.log [e]) R (jweBase64 mem R) k.s.reverse)) := by
  unfold deriveSharedKey
  split
  · exact Or.inl rfl
  · rename_i mem hmem
    simp only []
    split_ifs with h1 h2 h3
    · exact Or.inl rfl
    · exact Or.inl rfl
    · exact Or.inr ⟨mem, _, _, _, hmem, by omega, rfl, by omega, rfl, rfl, Or.inl ⟨h3, rfl⟩⟩
    · exact Or.inr ⟨mem, _, _, _, hmem, by omega, rfl, by omega, rfl, rfl,
        Or.inr ⟨not_not.mp h3, rfl⟩⟩

/-- The ways in which the part of the wrapper from line 109 on can end. -/
theorem tail_cases (p : Platform) (s : St) (R : Int) :
    deriveSharedKey p s R = s.stop Outcome.undefinedRead ∨
    ∃ (mem : Mem) (pk : List Nat) (k : SharedKeyResult) (e1 : Event),
      s.module.dataXferPtr = some mem ∧ 0 ≤ R ∧
      pk = base64Decode (serverPubKeyBase64 mem s.module.dataXferSize R) ∧ 64 ≤ pk.length ∧
      k = p.sgx_ecc256_compute_shared_dhkey s.module.privKey
        { gx := pk.take 32, gy := (pk.drop 32).take 32 } ∧
      e1 = Event.computeSharedKey s.module.privKey (pk.take 32) ((pk.drop 32).take 32)
        k.status k.s ∧
      ((k.status ≠ SGX_SUCCESS ∧
          deriveSharedKey p s R = (s.log [e1]).stop (Outcome.threw Exc.derivingSharedKey)) ∨
       (k.status = SGX_SUCCESS ∧ ∃ j : List Nat, j = base64Decode (jweBase64 mem R) ∧
          ((j.length < 28 ∧
              deriveSharedKey p s R = (s.log [e1]).stop (Outcome.threw Exc.jweNotLargeEnough)) ∨
           ∃ (g : GcmResult) (pt : List Nat) (e2 : Event), 28 ≤ j.length ∧
              g = p.sgx_rijndael128GCM_decrypt (k.s.reverse.take 16)
                ((j.drop 12).take ((j.length - 12 - 16) % 2 ^ 32)) (j.take 12)
                ((j.drop (j.length - 16)).take 16) ∧
              pt = overwrite (List.replicate (j.length - 12 - 16) 0) g.written ∧
              e2 = Event.gcmDecrypt (k.s.reverse.take 16)
                ((j.drop 12).take ((j.length - 12 - 16) % 2 ^ 32))
                (j.take 12) ((j.drop (j.length - 16)).take 16) g.status pt ∧
              ((g.status ≠ SGX_SUCCESS ∧
                  deriveSharedKey p s R =
                    ((s.log [e1]).log [e2]).stop (Outcome.threw Exc.decryptingJwe)) ∨
               (g.status = SGX_SUCCESS ∧
                  (deriveSharedKey p s R =
                    (((s.log [e1]).log [e2]).log [Event.malloc pt.length]).stop
                      (Outcome.threw Exc.allocatingMemory) ∨
                   ∃ off : Nat, off ≠ 0 ∧ off = (p.wasmModuleMalloc pt.length).wasmOffset ∧
                    deriveSharedKey p s R =
                      { outcome := Outcome.completed,
                        trace := s.trace ++ [e1] ++ [e2] ++ [Event.malloc pt.length] ++
                          [Event.copyToSandbox off pt, Event.freeXfer, Event.writeJwtPtr off,
                            Event.writeJwtSize R],
                        module := { s.module with dataXferPtr := none, dataXferSize := 0 },
                        curException := s.curException,
                        jwtPtr := some off, jwtSize := some R,
                        sandboxBuf := some (off, pt) })))))) := by
  rcases deriveSharedKey_cases p s R with h | ⟨mem, pk, k, e1, hmem, hR, hpk, hlen, hk, he1, h⟩
  · exact Or.inl h
  · refine Or.inr ⟨mem, pk, k, e1, hmem, hR, hpk, hlen, hk, he1, ?_⟩
    rcases h with h | ⟨hks, h⟩
    · exact Or.inl h
    · refine Or.inr ⟨hks, ?_⟩
      rw [h]
      obtain ⟨j, hj, hd⟩ := decryptJwe_cases p (s.log [e1]) R (jweBase64 mem R) k.s.reverse
      refine ⟨j, hj, ?_⟩
      rcases hd with hd | ⟨g, pt, e2, hl, hg, hpt, he2, hd⟩
      · exact Or.inl hd
      · refine Or.inr ⟨g, pt, e2, hl, hg, hpt, he2, ?_⟩
        rcases hd with hd | ⟨hgs, hd⟩
        · exact Or.inl hd
        · refine Or.inr ⟨hgs, ?_⟩
          rw [hd]
          rcases publishJwt_cases p ((s.log [e1]).log [e2]) R pt with ha | ⟨off, ho, hm, ha⟩
          · exact Or.inl ha
          · exact Or.inr ⟨off, ho, hm, ha⟩

theorem mem_of_reaches (p : Platform) (s : St) (mem mem' : Mem)
    (hptr : s.module.dataXferPtr = p.ocallAttValidateQuote.dataXferPtr)
    (hmem : p.ocallAttValidateQuote.dataXferPtr = some mem)
    (hmem' : s.module.dataXferPtr = some mem') : mem' = mem := by
  rw [hptr, hmem] at hmem'
  exact (Option.some.inj hmem').symm

theorem overwrite_length (buf data : List Nat) : (overwrite buf data).length = buf.length := by
  unfold overwrite
  simp only [List.length_append, List.length_take, List.length_drop]
  omega

theorem readMem_length (mem : Mem) (off count : Nat) : (readMem mem off count).length = count := by
  simp [readMem]

theorem wrapInt32_lt (x : Int) : wrapInt32 x < 2 ^ 31 := by
  unfold wrapInt32
  omega

theorem jweRaw_length_lt (mem : Mem) (x : Int) :
    (base64Decode (jweBase64 mem (wrapInt32 x))).length < 2 ^ 31 := by
  have h1 := base64Decode_length_le (jweBase64 mem (wrapInt32 x))
  have h2 : (jweBase64 mem (wrapInt32 x)).length = (wrapInt32 x).toNat := readMem_length _ _ _
  have h3 := wrapInt32_lt x
  omega

theorem slice_split (j : List Nat) (h : 28 ≤ j.length) :
    slice j 0 12 ++ slice j 12 (j.length - 16) ++ slice j (j.length - 16) j.length = j := by
  unfold slice
  have e1 : j.length - 16 - 12 = j.length - 28 := by omega
  have e2 : j.length - (j.length - 16) = 16 := by omega
  have e3 : List.take 16 (List.drop (j.length - 16) j) = List.drop (j.length - 16) j := by
    apply List.take_of_length_le
    rw [List.length_drop]; omega
  have e4 : List.drop (j.length - 16) j = List.drop (j.length - 28) (List.drop 12 j) := by
    rw [List.drop_drop]; congr 1; omega
  rw [e1, e2, e3, e4, List.drop_zero, Nat.sub_zero, List.append_assoc, List.take_append_drop,
    List.take_append_drop]

theorem flipBit_ne (bytes : List Nat) (n : Nat) (h : n < 8 * bytes.length) :
    flipBit bytes n ≠ bytes := by
  intro heq
  have hlt : n / 8 < bytes.length := by omega
  have h1 : (flipBit bytes n)[n / 8]? = some (bytes.getD (n / 8) 0 ^^^ 2 ^ (n % 8)) := by
    unfold flipBit
    rw [List.getElem?_set_self hlt]
  rw [heq] at h1
  have h2 : bytes[n / 8]? = some (bytes.getD (n / 8) 0) := by
    rw [List.getD_eq_getElem?_getD, List.getElem?_eq_getElem hlt]
    rfl
  rw [h2] at h1
  have h3 := Option.some.inj h1
  have h4 : bytes.getD (n / 8) 0 ^^^ 0 = bytes.getD (n / 8) 0 ^^^ 2 ^ (n % 8) := by
    rw [Nat.xor_zero]; exact h3
  have h5 := Nat.xor_right_injective h4
  have : 0 < 2 ^ (n % 8) := Nat.two_pow_pos (n % 8)
  omega

theorem gcm_event_status (p : Platform) (m : EnclaveWasmModule) (k c i t pt : List Nat)
    (st : Nat)
    (hcall : Event.gcmDecrypt k c i t st pt ∈ (accless_get_attestation_jwt_wrapper p m).trace) :
    st = (p.sgx_rijndael128GCM_decrypt k c i t).status := by
  rcases run_cases p m with ⟨s, o, hr, hs, -⟩ | ⟨s, hr, hs, -, -, -⟩
  · rw [hr] at hcall
    exact absurd hcall (not_mem_of_early _ hs _ rfl)
  · rw [hr] at hcall
    have hg := not_mem_of_early _ hs (Event.gcmDecrypt k c i t st pt) rfl
    rcases tail_cases p s (wrapInt32 p.ocallAttValidateQuote.jwtResponseSize) with
      h | ⟨mem, pk, sk, e1, -, -, -, -, -, he1, h⟩
    · rw [h] at hcall; exact absurd hcall hg
    · rcases h with ⟨-, h⟩ | ⟨-, j, -, h⟩
      · rw [h] at hcall
        subst he1
        simp [St.stop, St.log, hg] at hcall
      · rcases h with ⟨-, h⟩ | ⟨g, pt', e2, -, hgd, -, he2, h⟩
        · rw [h] at hcall
          subst he1
          simp [St.stop, St.log, hg] at hcall
        · have hev : Event.gcmDecrypt k c i t st pt = e2 := by
            rcases h with ⟨-, h⟩ | ⟨-, h | ⟨off, -, -, h⟩⟩
            · rw [h] at hcall
              subst he1
              simpa [St.stop, St.log, hg] using hcall
            · rw [h] at hcall
              subst he1
              simpa [St.stop, St.log, hg] using hcall
            · rw [h] at hcall
              subst he1
              simpa [hg] using hcall
          subst he2
          simp only [Event.gcmDecrypt.injEq] at hev
          obtain ⟨hk, hc, hi, ht, hst, -⟩ := hev
          rw [hst, hgd, hk, hc, hi, ht]

/-- A GCM call that returns a status other than `SGX_SUCCESS` ends the run as
`AttestationRejected`. -/
theorem rejected_of_gcm_failure (p : Platform) (m : EnclaveWasmModule) (k c i t pt : List Nat) (st : Nat)
    (hcall : Event.gcmDecrypt k c i t st pt ∈ (accless_get_attestation_jwt_wrapper p m).trace)
    (hfail : st ≠ SGX_SUCCESS) :
    (accless_get_attestation_jwt_wrapper p m).attestationRejected := by
  unfold Run.attestationRejected
  rcases run_cases p m with ⟨s, o, hr, hs, -⟩ | ⟨s, hr, hs, -, -, -⟩
  · rw [hr] at hcall
    exact absurd hcall (not_mem_of_early _ hs _ rfl)
  · rw [hr] at hcall ⊢
    have hg := not_mem_of_early _ hs (Event.gcmDecrypt k c i t st pt) rfl
    have hm := fun n => not_mem_of_early _ hs (Event.malloc n) rfl
    have hc := fun o b => not_mem_of_early _ hs (Event.copyToSandbox o b) rfl
    rcases tail_cases p s (wrapInt32 p.ocallAttValidateQuote.jwtResponseSize) with
      h | ⟨mem, pk, sk, e1, -, -, -, -, -, he1, h⟩
    · rw [h] at hcall; exact absurd hcall hg
    · rcases h with ⟨-, h⟩ | ⟨-, j, -, h⟩
      · rw [h] at hcall
        subst he1
        simp [St.stop, St.log, hg] at hcall
      · rcases h with ⟨-, h⟩ | ⟨g, pt', e2, -, -, -, he2, h⟩
        · rw [h] at hcall
          subst he1
          simp [St.stop, St.log, hg] at hcall
        · rcases h with ⟨-, h⟩ | ⟨hgs, h | ⟨off, -, -, h⟩⟩
          · rw [h]
            subst he1 he2
            simp [St.stop, St.log, hm, hc]
          · rw [h] at hcall
            subst he1 he2
            simp [St.stop, St.log, hg] at hcall
            exact absurd hgs (hcall.2.2.2.2.1 ▸ hfail)
          · rw [h] at hcall
            subst he1 he2
            simp [hg] at hcall
            exact absurd hgs (hcall.2.2.2.2.1 ▸ hfail)

/-- The GCM primitive of `tamperedTagPlatform` accepts the tag `01 00 .. 00`
only. -/
theorem tamperedTag_unique (k c i t : List Nat)
    (h : (tamperedTagPlatform.sgx_rijndael128GCM_decrypt k c i t).status = SGX_SUCCESS) :
    t = 1 :: List.replicate 15 0 := by
  by_contra hne
  have e : tamperedTagPlatform.sgx_rijndael128GCM_decrypt k c i t =
      { status := SGX_ERROR_MAC_MISMATCH, written := [] } := if_neg hne
  rw [e] at h
  exact absurd h (by decide)

/-! ## C1: a JWE shorter than IV and tag -/

/-- Claim C1, as amended. When the JWE in the transfer slot decodes to fewer than
28 bytes, the wrapper never calls the GCM primitive, allocates no sandbox
buffer and writes neither out slot; and once the ECDH derivation, which the
code performs before it decodes the JWE, has succeeded, the run ends with the
exception "JWE not large enough" (`MalformedJwe`). -/
theorem short_jwe_rejected (p : Platform) (m : EnclaveWasmModule) (mem : Mem)
    (hmem : p.ocallAttValidateQuote.dataXferPtr = some mem)
    (hshort : (base64Decode
      (jweBase64 mem (wrapInt32 p.ocallAttValidateQuote.jwtResponseSize))).length < 28) :
    (∀ k c i t st pt,
      Event.gcmDecrypt k c i t st pt ∉ (accless_get_attestation_jwt_wrapper p m).trace) ∧
    (∀ n, Event.malloc n ∉ (accless_get_attestation_jwt_wrapper p m).trace) ∧
    (accless_get_attestation_jwt_wrapper p m).sandboxBuf = none ∧
    (accless_get_attestation_jwt_wrapper p m).jwtPtr = none ∧
    (accless_get_attestation_jwt_wrapper p m).jwtSize = none ∧
    (∀ priv gx gy S, Event.computeSharedKey priv gx gy SGX_SUCCESS S ∈
        (accless_get_attestation_jwt_wrapper p m).trace →
      (accless_get_attestation_jwt_wrapper p m).outcome =
        Outcome.threw Exc.jweNotLargeEnough) := by
  rcases run_cases p m with ⟨s, o, hr, hs, -⟩ | ⟨s, hr, hs, -, hptr, -⟩
  · rw [hr]
    refine ⟨fun k c i t st pt => not_mem_of_early _ hs _ rfl,
      fun n => not_mem_of_early _ hs _ rfl, rfl, rfl, rfl, ?_⟩
    intro priv gx gy S h
    exact absurd h (not_mem_of_early _ hs _ rfl)
  · rw [hr]
    have hg := fun k c i t st pt => not_mem_of_early _ hs (Event.gcmDecrypt k c i t st pt) rfl
    have hm := fun n => not_mem_of_early _ hs (Event.malloc n) rfl
    have hk := fun a b c d e => not_mem_of_early _ hs (Event.computeSharedKey a b c d e) rfl
    rcases tail_cases p s (wrapInt32 p.ocallAttValidateQuote.jwtResponseSize) with
      h | ⟨mem', pk, sk, e1, hmem', -, -, -, -, he1, h⟩
    · rw [h]
      exact ⟨hg, hm, rfl, rfl, rfl, fun a b c d hh => absurd hh (hk a b c _ d)⟩
    · have hmm := mem_of_reaches p s mem mem' hptr hmem hmem'
      subst hmm
      rcases h with ⟨hks, h⟩ | ⟨-, j, hj, h⟩
      · rw [h]
        subst he1
        simp [St.stop, St.log, hg, hm, hk]
        intro _ _ _ _ _ _ _ hst
        exact absurd hst.symm hks
      · rcases h with ⟨-, h⟩ | ⟨g, pt', e2, hl, -, -, -, -⟩
        · rw [h]
          subst he1
          simp [St.stop, St.log, hg, hm]
        · rw [← hj] at hshort
          omega

/-- Claim C1, as amended, on `shortJwePlatform`: three decoded bytes, the ECDH
derivation succeeds, the run throws "JWE not large enough" and both out slots
stay unwritten. -/
theorem short_jwe_rejected_witness :
    (accless_get_attestation_jwt_wrapper shortJwePlatform freshModule).outcome =
      Outcome.threw Exc.jweNotLargeEnough ∧
    (accless_get_attestation_jwt_wrapper shortJwePlatform freshModule).jwtPtr = none ∧
    (accless_get_attestation_jwt_wrapper shortJwePlatform freshModule).jwtSize = none :=
  have h := short_jwe_rejected shortJwePlatform freshModule (memA 92) rfl (by decide)
  ⟨h.2.2.2.2.2 (List.replicate 32 3) (List.replicate 32 0) (List.replicate 32 0)
      (List.range 32) (by decide), h.2.2.2.1, h.2.2.2.2.1⟩

/-- Claim C1 as stated fails: with a JWE of three decoded bytes and a server key
that the ECDH primitive rejects, the wrapper throws "Error deriving shared key
after key exchange" (line 139) and never reaches the length check of line 147,
so the error is not `MalformedJwe`. -/
theorem short_jwe_bad_key_counterexample :
    shortJweBadKeyPlatform.ocallAttValidateQuote.dataXferPtr = some (memA 92) ∧
    (base64Decode (jweBase64 (memA 92)
      (wrapInt32 shortJweBadKeyPlatform.ocallAttValidateQuote.jwtResponseSize))).length = 3 ∧
    (accless_get_attestation_jwt_wrapper shortJweBadKeyPlatform freshModule).outcome =
      Outcome.threw Exc.derivingSharedKey ∧
    (accless_get_attestation_jwt_wrapper shortJweBadKeyPlatform freshModule).outcome ≠
      Outcome.threw Exc.jweNotLargeEnough := by
  refine ⟨rfl, ?_, ?_, ?_⟩ <;> decide

/-! ## C2: a failed tag check -/

/-- Claim C2. If the GCM primitive is called and its tag check fails, the run
ends as `AttestationRejected`: the exception "Error decrypting JWE" is thrown,
no sandbox buffer is allocated or written, and neither out slot is written.
This holds for every status other than `SGX_SUCCESS`, and in particular when
the tag of the JWE is a tag that the primitive accepts for the same key, IV and
ciphertext with one bit flipped, the primitive accepting one tag at most. -/
theorem tag_failure_rejects (p : Platform) (m : EnclaveWasmModule) (k c i t pt : List Nat)
    (st : Nat)
    (hcall : Event.gcmDecrypt k c i t st pt ∈ (accless_get_attestation_jwt_wrapper p m).trace) :
    (st ≠ SGX_SUCCESS → (accless_get_attestation_jwt_wrapper p m).attestationRejected) ∧
    (∀ (t0 : List Nat) (n : Nat), t0.length = 16 → n < 128 → t = flipBit t0 n →
      (p.sgx_rijndael128GCM_decrypt k c i t0).status = SGX_SUCCESS →
      (∀ t1 t2 : List Nat, (p.sgx_rijndael128GCM_decrypt k c i t1).status = SGX_SUCCESS →
        (p.sgx_rijndael128GCM_decrypt k c i t2).status = SGX_SUCCESS → t1 = t2) →
      (accless_get_attestation_jwt_wrapper p m).attestationRejected) := by
  refine ⟨rejected_of_gcm_failure p m k c i t pt st hcall, ?_⟩
  intro t0 n hlen hn hflip hvalid huniq
  apply rejected_of_gcm_failure p m k c i t pt st hcall
  intro hst
  have hs := gcm_event_status p m k c i t pt st hcall
  rw [hst] at hs
  have heq := huniq t t0 hs.symm hvalid
  rw [hflip] at heq
  exact flipBit_ne t0 n (by omega) heq

/-- Claim C2 on `tamperedTagPlatform`: the only tag that GCM accepts is
`01 00 .. 00`, the tag of the JWE is that tag with bit 0 flipped, GCM answers
`SGX_ERROR_MAC_MISMATCH`, and the run throws "Error decrypting JWE" with
nothing written. -/
theorem tag_failure_rejects_witness :
    (accless_get_attestation_jwt_wrapper tamperedTagPlatform freshModule).outcome =
      Outcome.threw Exc.decryptingJwe ∧
    (accless_get_attestation_jwt_wrapper tamperedTagPlatform freshModule).sandboxBuf = none ∧
    (accless_get_attestation_jwt_wrapper tamperedTagPlatform freshModule).jwtPtr = none ∧
    (accless_get_attestation_jwt_wrapper tamperedTagPlatform freshModule).jwtSize = none :=
  have h := (tag_failure_rejects tamperedTagPlatform freshModule
    [31, 30, 29, 28, 27, 26, 25, 24, 23, 22, 21, 20, 19, 18, 17, 16] [0, 0]
    (List.replicate 12 0) (List.replicate 16 0) [0, 0] SGX_ERROR_MAC_MISMATCH
    (by decide)).2 (1 :: List.replicate 15 0) 0 (by decide) (by decide) (by decide) (by decide)
    (fun t1 t2 h1 h2 => (tamperedTag_unique _ _ _ t1 h1).trans (tamperedTag_unique _ _ _ t2 h2).symm)
  ⟨h.1, h.2.2.2.1, h.2.2.2.2.1, h.2.2.2.2.2⟩

/-! ## C3: the AES key -/

/-- Claim C3. For a 32-byte shared secret `S` returned by the ECDH primitive, the
key passed to GCM decrypt is the first 16 bytes of the reversed `S`, that is
`key[n] = S[31 - n]` for every `n < 16`; it differs from `S[0..16)` as soon as
`S[n]` and `S[31 - n]` differ for some `n < 16`. -/
theorem aes_key_is_reversed_secret (p : Platform) (m : EnclaveWasmModule)
    (priv gx gy S key ct iv tag pt : List Nat) (st gst : Nat)
    (hS : S.length = 32)
    (hecdh : Event.computeSharedKey priv gx gy st S ∈
      (accless_get_attestation_jwt_wrapper p m).trace)
    (hgcm : Event.gcmDecrypt key ct iv tag gst pt ∈
      (accless_get_attestation_jwt_wrapper p m).trace) :
    key = S.reverse.take 16 ∧ key.length = 16 ∧
    (∀ n, n < 16 → key[n]? = S[31 - n]?) ∧
    ((∃ n, n < 16 ∧ S[n]? ≠ S[31 - n]?) → key ≠ S.take 16) := by
  have hkey : key = S.reverse.take 16 := by
    rcases run_cases p m with ⟨s, o, hr, hs, -⟩ | ⟨s, hr, hs, -, -, -⟩
    · rw [hr] at hgcm
      exact absurd hgcm (not_mem_of_early _ hs _ rfl)
    · rw [hr] at hgcm hecdh
      have hg := not_mem_of_early _ hs (Event.gcmDecrypt key ct iv tag gst pt) rfl
      have hk := not_mem_of_early _ hs (Event.computeSharedKey priv gx gy st S) rfl
      rcases tail_cases p s (wrapInt32 p.ocallAttValidateQuote.jwtResponseSize) with
        h | ⟨mem', pk, sk, e1, -, -, -, -, -, he1, h⟩
      · rw [h] at hgcm; exact absurd hgcm hg
      · rcases h with ⟨-, h⟩ | ⟨-, j, -, h⟩
        · rw [h] at hgcm
          subst he1
          simp [St.stop, St.log, hg] at hgcm
        · rcases h with ⟨-, h⟩ | ⟨g, pt', e2, -, -, -, he2, h⟩
          · rw [h] at hgcm
            subst he1
            simp [St.stop, St.log, hg] at hgcm
          · have hboth : Event.computeSharedKey priv gx gy st S = e1 ∧
                Event.gcmDecrypt key ct iv tag gst pt = e2 := by
              rcases h with ⟨-, h⟩ | ⟨-, h | ⟨off, -, -, h⟩⟩
              · rw [h] at hgcm hecdh
                subst he1 he2
                simp [St.stop, St.log, hg, hk] at hgcm hecdh
                simp [hgcm, hecdh]
              · rw [h] at hgcm hecdh
                subst he1 he2
                simp [St.stop, St.log, hg, hk] at hgcm hecdh
                simp [hgcm, hecdh]
              · rw [h] at hgcm hecdh
                subst he1 he2
                simp [hg, hk] at hgcm hecdh
                simp [hgcm, hecdh]
            subst he1 he2
            obtain ⟨h1, h2⟩ := hboth
            simp only [Event.computeSharedKey.injEq, Event.gcmDecrypt.injEq] at h1 h2
            rw [h2.1, h1.2.2.2.2]
  have hidx : ∀ n, n < 16 → key[n]? = S[31 - n]? := by
    intro n hn
    rw [hkey, List.getElem?_take, if_pos hn, List.getElem?_reverse (by omega), hS]
  refine ⟨hkey, ?_, hidx, ?_⟩
  · rw [hkey, List.length_take, List.length_reverse, hS]; rfl
  · rintro ⟨n, hn, hne⟩ heq
    apply hne
    rw [← hidx n hn, heq, List.getElem?_take, if_pos hn]

/-- Claim C3 on `goodPlatform`: the shared secret `0, 1, .., 31` gives the key
`31, 30, .., 16`, which is not `0, 1, .., 15`. -/
theorem aes_key_is_reversed_secret_witness :
    [31, 30, 29, 28, 27, 26, 25, 24, 23, 22, 21, 20, 19, 18, 17, 16] =
      (List.range 32).reverse.take 16 ∧
    [31, 30, 29, 28, 27, 26, 25, 24, 23, 22, 21, 20, 19, 18, 17, 16] ≠
      (List.range 32).take 16 :=
  have h := aes_key_is_reversed_secret goodPlatform freshModule
    (List.replicate 32 3) (List.replicate 32 0) (List.replicate 32 0) (List.range 32)
    [31, 30, 29, 28, 27, 26, 25, 24, 23, 22, 21, 20, 19, 18, 17, 16] [0, 0]
    (List.replicate 12 0) (List.replicate 16 0) [74, 87] 0 0
    (by decide) (by decide) (by decide)
  ⟨h.1, h.2.2.2 ⟨0, by decide, by decide⟩⟩

/-! ## C4: the server public key -/

/-- Claim C4, as amended. The server public key given to the ECDH primitive is
base64-decoded, not raw: with `d` the decoding of the string that the wrapper
reads from offset `jwtResponseSize` of the transfer slot, `d` has at least 64
bytes, `gx = d[0..32)` and `gy = d[32..64)`. -/
theorem server_key_is_decoded (p : Platform) (m : EnclaveWasmModule) (mem : Mem)
    (priv gx gy S : List Nat) (st : Nat)
    (hmem : p.ocallAttValidateQuote.dataXferPtr = some mem)
    (hecdh : Event.computeSharedKey priv gx gy st S ∈
      (accless_get_attestation_jwt_wrapper p m).trace) :
    ∃ d : List Nat,
      d = base64Decode (serverPubKeyBase64 mem p.ocallAttValidateQuote.dataXferSize
        (wrapInt32 p.ocallAttValidateQuote.jwtResponseSize)) ∧
      64 ≤ d.length ∧ gx = d.take 32 ∧ gy = (d.drop 32).take 32 ∧
      gx.length = 32 ∧ gy.length = 32 := by
  rcases run_cases p m with ⟨s, o, hr, hs, -⟩ | ⟨s, hr, hs, -, hptr, hsz⟩
  · rw [hr] at hecdh
    exact absurd hecdh (not_mem_of_early _ hs _ rfl)
  · rw [hr] at hecdh
    have hk := not_mem_of_early _ hs (Event.computeSharedKey priv gx gy st S) rfl
    rcases tail_cases p s (wrapInt32 p.ocallAttValidateQuote.jwtResponseSize) with
      h | ⟨mem', pk, sk, e1, hmem', -, hpk, hlen, -, he1, h⟩
    · rw [h] at hecdh; exact absurd hecdh hk
    · have hmm := mem_of_reaches p s mem mem' hptr hmem hmem'
      subst hmm
      rw [hsz] at hpk
      have hev : Event.computeSharedKey priv gx gy st S = e1 := by
        rcases h with ⟨-, h⟩ | ⟨-, j, -, h⟩
        · rw [h] at hecdh
          simpa [St.stop, St.log, hk] using hecdh
        · rcases h with ⟨-, h⟩ | ⟨g, pt', e2, -, -, -, he2, h⟩
          · rw [h] at hecdh
            simpa [St.stop, St.log, hk] using hecdh
          · rcases h with ⟨-, h⟩ | ⟨-, h | ⟨off, -, -, h⟩⟩
            · rw [h] at hecdh
              subst he2
              simpa [St.stop, St.log, hk] using hecdh
            · rw [h] at hecdh
              subst he2
              simpa [St.stop, St.log, hk] using hecdh
            · rw [h] at hecdh
              subst he2
              simpa [hk] using hecdh
      subst he1
      simp only [Event.computeSharedKey.injEq] at hev
      refine ⟨pk, hpk, hlen, hev.2.1, hev.2.2.1, ?_, ?_⟩
      · rw [hev.2.1, List.length_take]; omega
      · rw [hev.2.2.1, List.length_take, List.length_drop]; omega

/-- Claim C4, as amended, on `goodPlatform`: the 88 characters `A` after the JWE
decode to zero bytes, and both coordinates are 32 zero bytes. -/
theorem server_key_is_decoded_witness :
    ∃ d : List Nat,
      d = base64Decode (serverPubKeyBase64 (memA 128)
        goodPlatform.ocallAttValidateQuote.dataXferSize
        (wrapInt32 goodPlatform.ocallAttValidateQuote.jwtResponseSize)) ∧
      64 ≤ d.length ∧ List.replicate 32 0 = d.take 32 ∧
      List.replicate 32 0 = (d.drop 32).take 32 ∧
      (List.replicate 32 0).length = 32 ∧ (List.replicate 32 0).length = 32 :=
  server_key_is_decoded goodPlatform freshModule (memA 128) (List.replicate 32 3)
    (List.replicate 32 0) (List.replicate 32 0) (List.range 32) 0 rfl (by decide)

/-- Claim C4 as stated fails: with a transfer buffer of `jwtResponseSize + 64`
bytes whose last 64 bytes are the raw key `41 41 .. 41`, the coordinates given
to the ECDH primitive are 32 zero bytes each (the base64 decoding of `AAA..`),
not the raw bytes of the buffer. -/
theorem server_key_not_raw :
    rawKeyPlatform.ocallAttValidateQuote.dataXferSize =
      (wrapInt32 rawKeyPlatform.ocallAttValidateQuote.jwtResponseSize).toNat + 64 ∧
    Event.computeSharedKey (List.replicate 32 3) (List.replicate 32 0) (List.replicate 32 0) 0
      (List.range 32) ∈ (accless_get_attestation_jwt_wrapper rawKeyPlatform freshModule).trace ∧
    readMem (fun _ => 65) 40 32 = List.replicate 32 65 ∧
    readMem (fun _ => 65) (40 + 32) 32 = List.replicate 32 65 ∧
    List.replicate 32 0 ≠ readMem (fun _ => 65) 40 32 := by
  refine ⟨?_, ?_, ?_, ?_, ?_⟩ <;> decide

/-! ## C5: caching of the report -/

/-- Claim C5 fails on the code: when `sgx_create_report` returns
`SGX_ERROR_INVALID_PARAMETER` and no report was cached, the wrapper has copied
the report buffer into `cachedSgxReport` (lines 71-76) before it looks at the
status (line 78), and returns with the cache populated. -/
theorem failed_report_is_cached :
    freshModule.cachedSgxReport = none ∧
    (reportFailsPlatform.sgx_create_report
      reportFailsPlatform.ocallAttGetQETargetInfo.targetInfo
      (freshModule.pubKey.gx ++ freshModule.pubKey.gy)).status = SGX_ERROR_INVALID_PARAMETER ∧
    (accless_get_attestation_jwt_wrapper reportFailsPlatform freshModule).outcome =
      Outcome.returnedAfterError LoggedError.reportInvalidParameter ∧
    (accless_get_attestation_jwt_wrapper reportFailsPlatform freshModule).module.cachedSgxReport =
      some { mrEnclave := [], reportData := [] } := by
  refine ⟨rfl, ?_, ?_, ?_⟩ <;> decide

/-! ## C6: failed host transitions -/

/-- Claim C6 fails on the code. An inner failure of either OCall ends in a plain
`return` that leaves no exception code for the sandbox; a transport failure of
either OCall runs `SET_ERROR` and then goes on with the later steps: report
creation after a failed `ocallAttGetQETargetInfo`, decryption and the write of
both out slots after a failed `ocallAttValidateQuote`. -/
theorem host_failure_not_surfaced :
    ((accless_get_attestation_jwt_wrapper qeInnerFailsPlatform freshModule).outcome =
        Outcome.returnedAfterError LoggedError.gettingQEInfo ∧
      (accless_get_attestation_jwt_wrapper qeInnerFailsPlatform freshModule).curException =
        none) ∧
    ((accless_get_attestation_jwt_wrapper quoteInnerFailsPlatform freshModule).outcome =
        Outcome.returnedAfterError LoggedError.validatingQuote ∧
      (accless_get_attestation_jwt_wrapper quoteInnerFailsPlatform freshModule).curException =
        none) ∧
    ((accless_get_attestation_jwt_wrapper qeTransportFailsPlatform freshModule).trace.take 3 =
        [Event.getQETargetInfo, Event.setError SGX_ERROR_UNEXPECTED,
          Event.createReport [] (List.replicate 32 1 ++ List.replicate 32 2) 0] ∧
      (accless_get_attestation_jwt_wrapper qeTransportFailsPlatform freshModule).outcome =
        Outcome.completed) ∧
    (Event.setError SGX_ERROR_UNEXPECTED ∈
        (accless_get_attestation_jwt_wrapper quoteTransportFailsPlatform freshModule).trace ∧
      Event.gcmDecrypt [31, 30, 29, 28, 27, 26, 25, 24, 23, 22, 21, 20, 19, 18, 17, 16] [0, 0]
          (List.replicate 12 0) (List.replicate 16 0) 0 [74, 87] ∈
        (accless_get_attestation_jwt_wrapper quoteTransportFailsPlatform freshModule).trace ∧
      (accless_get_attestation_jwt_wrapper quoteTransportFailsPlatform freshModule).jwtPtr =
        some 1024 ∧
      (accless_get_attestation_jwt_wrapper quoteTransportFailsPlatform freshModule).jwtSize =
        some 40) := by
  refine ⟨⟨?_, ?_⟩, ⟨?_, ?_⟩, ⟨?_, ?_⟩, ?_, ?_, ?_, ?_⟩ <;> decide

/-! ## C7: round trip of the decoder -/

/-- Claim C7. For every byte sequence `x`, of any length, decoding the standard
base64 encoding of `x`, padded with `=` or not, gives `x` back: the 32-bit
wrap of the accumulator `val` never reaches the bits that are written. -/
theorem base64Decode_base64Encode (x : List Nat) (hx : ∀ b ∈ x, b < 256) (pad : Bool) :
    base64Decode (base64Encode pad x) = x := by
  unfold base64Decode base64Encode
  have h := loop_encode x hx (if pad = true then base64Padding x.length else [])
    (by
      cases pad
      · simp
      · simpa using padding_head x.length) 0 []
  simpa using h

/-- Claim C7 on seven bytes, whose encoding has ten characters: the round trip
holds with and without padding. -/
theorem base64Decode_base64Encode_witness :
    base64Decode (base64Encode true [255, 254, 253, 252, 251, 250, 249]) =
      [255, 254, 253, 252, 251, 250, 249] ∧
    base64Decode (base64Encode false [255, 254, 253, 252, 251, 250, 249]) =
      [255, 254, 253, 252, 251, 250, 249] :=
  ⟨base64Decode_base64Encode [255, 254, 253, 252, 251, 250, 249] (by decide) true,
   base64Decode_base64Encode [255, 254, 253, 252, 251, 250, 249] (by decide) false⟩

/-! ## C8: the decoder halts at the first non-alphabet byte -/

/-- Claim C8. For the longest prefix `p` of `s` made of alphabet characters only,
`base64Decode s = base64Decode p`; a string that starts with a non-alphabet
byte decodes to the empty sequence; and `=`, `-` and `_` are not alphabet
characters. -/
theorem base64Decode_halts_at_first_non_alphabet_byte (s p : List Nat) (hp : p <+: s)
    (halpha : ∀ c ∈ p, c ∈ base64Chars)
    (hmax : ∀ q : List Nat, q <+: s → (∀ c ∈ q, c ∈ base64Chars) → q.length ≤ p.length) :
    base64Decode s = base64Decode p ∧
    (∀ c rest, s = c :: rest → c ∉ base64Chars → base64Decode s = []) ∧
    61 ∉ base64Chars ∧ 45 ∉ base64Chars ∧ 95 ∉ base64Chars := by
  refine ⟨?_, ?_, by decide, by decide, by decide⟩
  · rw [longest_eq_takeWhile s p hp halpha hmax]
    exact loop_takeWhile s 0 (-8) []
  · intro c rest hs hc
    subst hs
    have : isBase64 c = false := by
      rw [← Bool.not_eq_true]
      exact fun h => hc ((isBase64_iff_mem c).mp h)
    simp [base64Decode, base64DecodeLoop, this]

/-- Claim C8 on `TWFu=TW`: the decoding is that of `TWFu`, the bytes of `Man`. -/
theorem base64Decode_halts_at_first_non_alphabet_byte_witness :
    base64Decode [84, 87, 70, 117, 61, 84, 87] = base64Decode [84, 87, 70, 117] ∧
    base64Decode [84, 87, 70, 117] = [77, 97, 110] :=
  ⟨(base64Decode_halts_at_first_non_alphabet_byte [84, 87, 70, 117, 61, 84, 87] [84, 87, 70, 117]
      (by decide) (by decide)
      (fun q hq hall => (takeWhile_longest [84, 87, 70, 117, 61, 84, 87]).2.2 q hq hall)).1,
   by decide⟩

/-! ## C9: the split of the JWE -/

/-- Claim C9. When the flow reaches the decryption with a decoded JWE `j` of
length `L ≥ 28`, the GCM primitive is called with the IV `j[0..12)`, the
ciphertext `j[12..L-16)` and the tag `j[L-16..L)`; the three parts concatenate
to `j`, and the plaintext buffer has `L - 28` bytes, the length of the
ciphertext. -/
theorem jwe_is_split (p : Platform) (m : EnclaveWasmModule) (mem : Mem)
    (priv gx gy S j : List Nat)
    (hmem : p.ocallAttValidateQuote.dataXferPtr = some mem)
    (hecdh : Event.computeSharedKey priv gx gy SGX_SUCCESS S ∈
      (accless_get_attestation_jwt_wrapper p m).trace)
    (hj : j = base64Decode (jweBase64 mem (wrapInt32 p.ocallAttValidateQuote.jwtResponseSize)))
    (hlen : 28 ≤ j.length) :
    (∃ (key pt : List Nat) (st : Nat),
      Event.gcmDecrypt key (slice j 12 (j.length - 16)) (slice j 0 12)
        (slice j (j.length - 16) j.length) st pt ∈
          (accless_get_attestation_jwt_wrapper p m).trace ∧
      pt.length = j.length - 28) ∧
    slice j 0 12 ++ slice j 12 (j.length - 16) ++ slice j (j.length - 16) j.length = j ∧
    (slice j 0 12).length = 12 ∧ (slice j 12 (j.length - 16)).length = j.length - 28 ∧
    (slice j (j.length - 16) j.length).length = 16 := by
  have hlt : j.length < 2 ^ 31 := by rw [hj]; exact jweRaw_length_lt _ _
  have hmod : (j.length - 12 - 16) % 2 ^ 32 = j.length - 28 := by omega
  have hiv : slice j 0 12 = j.take 12 := by simp [slice]
  have hct : slice j 12 (j.length - 16) = (j.drop 12).take (j.length - 28) := by
    unfold slice
    rw [show j.length - 16 - 12 = j.length - 28 from by omega]
  have htag : slice j (j.length - 16) j.length = (j.drop (j.length - 16)).take 16 := by
    unfold slice
    rw [show j.length - (j.length - 16) = 16 from by omega]
  refine ⟨?_, slice_split j hlen, ?_, ?_, ?_⟩
  · rw [hiv, hct, htag]
    rcases run_cases p m with ⟨s, o, hr, hs, -⟩ | ⟨s, hr, hs, -, hptr, hsz⟩
    · rw [hr] at hecdh
      exact absurd hecdh (not_mem_of_early _ hs _ rfl)
    · rw [hr] at hecdh ⊢
      have hk := not_mem_of_early _ hs (Event.computeSharedKey priv gx gy SGX_SUCCESS S) rfl
      rcases tail_cases p s (wrapInt32 p.ocallAttValidateQuote.jwtResponseSize) with
        h | ⟨mem', pk, sk, e1, hmem', -, hpk, -, -, he1, h⟩
      · rw [h] at hecdh; exact absurd hecdh hk
      · have hmm := mem_of_reaches p s mem mem' hptr hmem hmem'
        subst hmm
        rcases h with ⟨hks, h⟩ | ⟨-, j', hj', h⟩
        · rw [h] at hecdh
          subst he1
          simp [St.stop, St.log, hk] at hecdh
          exact absurd hecdh.2.2.2.1.symm hks
        · have hjj : j' = j := by rw [hj, hj']
          subst hjj
          rcases h with ⟨hs', -⟩ | ⟨g, pt', e2, -, -, hpt, he2, h⟩
          · omega
          · rw [hmod] at he2
            have hptl : pt'.length = j'.length - 28 := by
              rw [hpt, overwrite_length, List.length_replicate]; omega
            refine ⟨sk.s.reverse.take 16, pt', g.status, ?_, hptl⟩
            rw [← he2]
            rcases h with ⟨-, h⟩ | ⟨-, h | ⟨off, -, -, h⟩⟩
            · rw [h]; simp [St.stop, St.log]
            · rw [h]; simp [St.stop, St.log]
            · rw [h]; simp
  · rw [hiv, List.length_take]; omega
  · rw [hct, List.length_take, List.length_drop]; omega
  · rw [htag, List.length_take, List.length_drop]; omega

/-- Claim C9 on `goodPlatform`: a JWE of 30 bytes is split at 12 and 14 and the
plaintext buffer has two bytes. -/
theorem jwe_is_split_witness :
    (∃ (key pt : List Nat) (st : Nat),
      Event.gcmDecrypt key (slice (List.replicate 30 0) 12 14) (slice (List.replicate 30 0) 0 12)
        (slice (List.replicate 30 0) 14 30) st pt ∈
          (accless_get_attestation_jwt_wrapper goodPlatform freshModule).trace ∧
      pt.length = 2) :=
  (jwe_is_split goodPlatform freshModule (memA 128) (List.replicate 32 3)
    (List.replicate 32 0) (List.replicate 32 0) (List.range 32) (List.replicate 30 0)
    rfl (by decide) (by decide) (by decide)).1

/-! ## C10: the published JWT -/

/-- A zeroed buffer of `n` bytes after `w` has been written at its start: the
first `n` bytes of `w`, then the zeros that `w` did not reach. -/
theorem overwrite_zeros (n : Nat) (w : List Nat) :
    overwrite (List.replicate n 0) w = w.take n ++ List.replicate (n - w.length) 0 := by
  unfold overwrite
  rw [List.length_replicate, List.drop_replicate]

/-- A zeroed buffer that is written in full holds exactly the written bytes. -/
theorem overwrite_zeros_full (n : Nat) (w : List Nat) (h : w.length = n) :
    overwrite (List.replicate n 0) w = w := by
  rw [overwrite_zeros, ← h, Nat.sub_self, List.take_length]
  simp

/-- Claim C10. On every completed run the GCM primitive has returned
`SGX_SUCCESS`, a sandbox buffer of `len(JWT)` bytes is allocated and receives
the decrypted JWT, `*jwtPtrPtr` receives its non-zero sandbox offset, and
`*jwtSizePtr` receives `jwtResponseSize`, the length of the base64 JWE in the
transfer slot, which is strictly larger than `len(JWT)`. The JWT is what the
primitive wrote into the zeroed plaintext buffer, which has the length of the
ciphertext: the written bytes themselves when the primitive writes one byte
for each byte of ciphertext. -/
theorem success_publishes_jwt (p : Platform) (m : EnclaveWasmModule)
    (hok : (accless_get_attestation_jwt_wrapper p m).outcome = Outcome.completed) :
    ∃ (mem : Mem) (off : Nat) (jwt key ct iv tag : List Nat),
      p.ocallAttValidateQuote.dataXferPtr = some mem ∧
      Event.gcmDecrypt key ct iv tag SGX_SUCCESS jwt ∈
        (accless_get_attestation_jwt_wrapper p m).trace ∧
      Event.malloc jwt.length ∈ (accless_get_attestation_jwt_wrapper p m).trace ∧
      Event.copyToSandbox off jwt ∈ (accless_get_attestation_jwt_wrapper p m).trace ∧
      (accless_get_attestation_jwt_wrapper p m).sandboxBuf = some (off, jwt) ∧
      off ≠ 0 ∧
      (accless_get_attestation_jwt_wrapper p m).jwtPtr = some off ∧
      (accless_get_attestation_jwt_wrapper p m).jwtSize =
        some (wrapInt32 p.ocallAttValidateQuote.jwtResponseSize) ∧
      ((jweBase64 mem (wrapInt32 p.ocallAttValidateQuote.jwtResponseSize)).length : Int) =
        wrapInt32 p.ocallAttValidateQuote.jwtResponseSize ∧
      (jwt.length : Int) < wrapInt32 p.ocallAttValidateQuote.jwtResponseSize ∧
      (p.sgx_rijndael128GCM_decrypt key ct iv tag).status = SGX_SUCCESS ∧
      jwt.length = ct.length ∧
      jwt = (p.sgx_rijndael128GCM_decrypt key ct iv tag).written.take ct.length ++
        List.replicate (ct.length - (p.sgx_rijndael128GCM_decrypt key ct iv tag).written.length) 0 ∧
      ((p.sgx_rijndael128GCM_decrypt key ct iv tag).written.length = ct.length →
        jwt = (p.sgx_rijndael128GCM_decrypt key ct iv tag).written) ∧
      off = (p.wasmModuleMalloc jwt.length).wasmOffset := by
  rcases run_cases p m with ⟨s, o, hr, hs, ho⟩ | ⟨s, hr, hs, -, hptr, hsz⟩
  · rw [hr] at hok
    simp only [St.stop] at hok
    subst hok
    exact absurd ho (by decide)
  · rw [hr] at hok ⊢
    rcases tail_cases p s (wrapInt32 p.ocallAttValidateQuote.jwtResponseSize) with
      h | ⟨mem, pk, sk, e1, hmem, hR, -, -, -, he1, h⟩
    · rw [h] at hok; simp [St.stop] at hok
    · rcases h with ⟨-, h⟩ | ⟨-, j, hj, h⟩
      · rw [h] at hok; simp [St.stop] at hok
      · rcases h with ⟨-, h⟩ | ⟨g, pt, e2, hl, hg, hpt, he2, h⟩
        · rw [h] at hok; simp [St.stop] at hok
        · rcases h with ⟨-, h⟩ | ⟨hgs, h | ⟨off, hoff, hmal, h⟩⟩
          · rw [h] at hok; simp [St.stop] at hok
          · rw [h] at hok; simp [St.stop] at hok
          · rw [h]
            have hlenR : ((jweBase64 mem
                (wrapInt32 p.ocallAttValidateQuote.jwtResponseSize)).length : Int) =
                wrapInt32 p.ocallAttValidateQuote.jwtResponseSize := by
              unfold jweBase64
              rw [readMem_length]
              exact Int.toNat_of_nonneg hR
            have hjl := base64Decode_length_le
              (jweBase64 mem (wrapInt32 p.ocallAttValidateQuote.jwtResponseSize))
            rw [← hj] at hjl
            have hlt : j.length < 2 ^ 31 := by rw [hj]; exact jweRaw_length_lt _ _
            have hmod : (j.length - 12 - 16) % 2 ^ 32 = j.length - 12 - 16 := by omega
            rw [hmod] at hg he2
            have hctl : ((j.drop 12).take (j.length - 12 - 16)).length = j.length - 12 - 16 := by
              rw [List.length_take, List.length_drop]; omega
            have hptl : pt.length = j.length - 12 - 16 := by
              rw [hpt, overwrite_length, List.length_replicate]
            rw [hgs] at he2
            refine ⟨mem, off, pt, sk.s.reverse.take 16,
              (j.drop 12).take (j.length - 12 - 16), j.take 12,
              (j.drop (j.length - 16)).take 16, hptr ▸ hmem, ?_, ?_, ?_, rfl, hoff, rfl, rfl,
              hlenR, ?_, ?_, ?_, ?_, ?_, hmal⟩
            · rw [← he2]; simp
            · simp
            · simp
            · omega
            · rw [← hg]; exact hgs
            · rw [hptl, hctl]
            · rw [← hg, hctl, hpt]; exact overwrite_zeros _ _
            · intro hw
              rw [← hg, hctl] at hw
              rw [← hg, hpt]
              exact overwrite_zeros_full _ _ hw

/-- Claim C10 on `goodPlatform`, whose run completes: GCM writes the two bytes
`JW`, and these are the bytes of the sandbox buffer at offset 1024; the out
slots receive 1024 and 40. -/
theorem success_publishes_jwt_witness :
    (accless_get_attestation_jwt_wrapper goodPlatform freshModule).outcome =
      Outcome.completed ∧
    (goodPlatform.sgx_rijndael128GCM_decrypt
      [31, 30, 29, 28, 27, 26, 25, 24, 23, 22, 21, 20, 19, 18, 17, 16] [0, 0]
      (List.replicate 12 0) (List.replicate 16 0)).written = [74, 87] ∧
    (accless_get_attestation_jwt_wrapper goodPlatform freshModule).sandboxBuf =
      some (1024, [74, 87]) ∧
    (accless_get_attestation_jwt_wrapper goodPlatform freshModule).jwtPtr = some 1024 ∧
    (accless_get_attestation_jwt_wrapper goodPlatform freshModule).jwtSize = some 40 ∧
    ∃ (mem : Mem) (off : Nat) (jwt key ct iv tag : List Nat),
      goodPlatform.ocallAttValidateQuote.dataXferPtr = some mem ∧
      Event.gcmDecrypt key ct iv tag SGX_SUCCESS jwt ∈
        (accless_get_attestation_jwt_wrapper goodPlatform freshModule).trace ∧
      Event.malloc jwt.length ∈ (accless_get_attestation_jwt_wrapper goodPlatform freshModule).trace ∧
      Event.copyToSandbox off jwt ∈
        (accless_get_attestation_jwt_wrapper goodPlatform freshModule).trace ∧
      (accless_get_attestation_jwt_wrapper goodPlatform freshModule).sandboxBuf = some (off, jwt) ∧
      off ≠ 0 ∧
      (accless_get_attestation_jwt_wrapper goodPlatform freshModule).jwtPtr = some off ∧
      (accless_get_attestation_jwt_wrapper goodPlatform freshModule).jwtSize =
        some (wrapInt32 goodPlatform.ocallAttValidateQuote.jwtResponseSize) ∧
      ((jweBase64 mem (wrapInt32 goodPlatform.ocallAttValidateQuote.jwtResponseSize)).length : Int) =
        wrapInt32 goodPlatform.ocallAttValidateQuote.jwtResponseSize ∧
      (jwt.length : Int) < wrapInt32 goodPlatform.ocallAttValidateQuote.jwtResponseSize ∧
      (goodPlatform.sgx_rijndael128GCM_decrypt key ct iv tag).status = SGX_SUCCESS ∧
      jwt.length = ct.length ∧
      jwt = (goodPlatform.sgx_rijndael128GCM_decrypt key ct iv tag).written.take ct.length ++
        List.replicate
          (ct.length - (goodPlatform.sgx_rijndael128GCM_decrypt key ct iv tag).written.length) 0 ∧
      ((goodPlatform.sgx_rijndael128GCM_decrypt key ct iv tag).written.length = ct.length →
        jwt = (goodPlatform.sgx_rijndael128GCM_decrypt key ct iv tag).written) ∧
      off = (goodPlatform.wasmModuleMalloc jwt.length).wasmOffset :=
  ⟨by decide, by decide, by decide, by decide, by decide,
    success_publishes_jwt goodPlatform freshModule (by decide)⟩

/-! ## C11: a second call -/

theorem tail_trace_extends (p : Platform) (s : St) (R : Int) :
    s.trace <+: (deriveSharedKey p s R).trace := by
  rcases tail_cases p s R with h | ⟨mem, pk, sk, e1, -, -, -, -, -, -, h⟩
  · exact ⟨[], by rw [h]; simp [St.stop]⟩
  · rcases h with ⟨-, h⟩ | ⟨-, j, -, h⟩
    · exact ⟨[e1], by rw [h]; simp [St.stop, St.log]⟩
    · rcases h with ⟨-, h⟩ | ⟨g, pt, e2, -, -, -, -, h⟩
      · exact ⟨[e1], by rw [h]; simp [St.stop, St.log]⟩
      · rcases h with ⟨-, h⟩ | ⟨-, h | ⟨off, -, -, h⟩⟩
        · exact ⟨[e1, e2], by rw [h]; simp [St.stop, St.log]⟩
        · exact ⟨[e1, e2, Event.malloc pt.length], by rw [h]; simp [St.stop, St.log]⟩
        · exact ⟨[e1, e2, Event.malloc pt.length, Event.copyToSandbox off pt, Event.freeXfer,
            Event.writeJwtPtr off, Event.writeJwtSize R], by rw [h]; simp⟩

theorem tail_cached (p : Platform) (s : St) (R : Int) :
    (deriveSharedKey p s R).module.cachedSgxReport = s.module.cachedSgxReport := by
  rcases tail_cases p s R with h | ⟨mem, pk, sk, e1, -, -, -, -, -, -, h⟩
  · rw [h]; rfl
  · rcases h with ⟨-, h⟩ | ⟨-, j, -, h⟩
    · rw [h]; rfl
    · rcases h with ⟨-, h⟩ | ⟨g, pt, e2, -, -, -, -, h⟩
      · rw [h]; rfl
      · rcases h with ⟨-, h⟩ | ⟨-, h | ⟨off, -, -, h⟩⟩
        · rw [h]; rfl
        · rw [h]; rfl
        · rw [h]

theorem submitQuote_trace_cached (p : Platform) (s : St) (rep : SgxReport) :
    s.trace <+: (submitQuote p s rep).trace ∧
    (submitQuote p s rep).module.cachedSgxReport = s.module.cachedSgxReport := by
  unfold submitQuote
  simp only []
  split_ifs with h1 h2 h3
  · exact ⟨⟨[], by simp [St.stop]⟩, rfl⟩
  · refine ⟨?_, ?_⟩
    · refine List.IsPrefix.trans ?_ (tail_trace_extends p _ _)
      exact ⟨[Event.validateQuote rep, Event.setError p.ocallAttValidateQuote.sgxReturnValue],
        by simp [SET_ERROR]⟩
    · rw [tail_cached]; rfl
  · exact ⟨⟨[Event.validateQuote rep], by simp [St.stop]⟩, rfl⟩
  · refine ⟨?_, ?_⟩
    · refine List.IsPrefix.trans ?_ (tail_trace_extends p _ _)
      exact ⟨[Event.validateQuote rep], rfl⟩
    · rw [tail_cached]

theorem generateReport_trace_cached (p : Platform) (s : St) (ti : List Nat) :
    s.trace <+: (generateReport p s ti).trace ∧
    (generateReport p s ti).module.cachedSgxReport.isSome = true ∧
    (∀ r, s.module.cachedSgxReport = some r →
      (generateReport p s ti).module.cachedSgxReport = some r) := by
  unfold generateReport
  simp only []
  generalize hs2 : (if (s.log [Event.createReport ti (s.module.pubKey.gx ++ s.module.pubKey.gy)
      (p.sgx_create_report ti (s.module.pubKey.gx ++ s.module.pubKey.gy)).status]).module.cachedSgxReport.isNone
      = true then _ else _ : St) = s2
  have ht : s.trace <+: s2.trace := by
    subst hs2; split_ifs <;> exact ⟨[_], rfl⟩
  have hsome : s2.module.cachedSgxReport.isSome = true := by
    subst hs2
    split_ifs with h
    · rfl
    · simp only [St.log] at h ⊢
      cases hc : s.module.cachedSgxReport <;> simp_all
  have hkeep : ∀ r, s.module.cachedSgxReport = some r → s2.module.cachedSgxReport = some r := by
    intro r hr
    subst hs2
    split_ifs with h
    · simp [St.log, hr] at h
    · exact hr
  split_ifs with h1 h2
  · obtain ⟨hq1, hq2⟩ := submitQuote_trace_cached p s2
      (p.sgx_create_report ti (s.module.pubKey.gx ++ s.module.pubKey.gy)).report
    exact ⟨ht.trans hq1, by rw [hq2]; exact hsome, fun r hr => by rw [hq2]; exact hkeep r hr⟩
  · exact ⟨ht, hsome, hkeep⟩
  · exact ⟨ht, hsome, hkeep⟩

theorem run_starts_with_qe_target_info (p : Platform) (m : EnclaveWasmModule) :
    [Event.getQETargetInfo] <+: (accless_get_attestation_jwt_wrapper p m).trace := by
  unfold accless_get_attestation_jwt_wrapper
  simp only []
  split_ifs with h1 h2
  · refine List.IsPrefix.trans ?_ (generateReport_trace_cached p _ _).1
    exact ⟨[Event.setError p.ocallAttGetQETargetInfo.sgxReturnValue], rfl⟩
  · exact ⟨[], by simp [St.stop]⟩
  · exact (generateReport_trace_cached p ⟨m, [Event.getQETargetInfo], none⟩ _).1

theorem run_keeps_cached (p : Platform) (m : EnclaveWasmModule) (r : SgxReport)
    (h : m.cachedSgxReport = some r) :
    (accless_get_attestation_jwt_wrapper p m).module.cachedSgxReport = some r := by
  unfold accless_get_attestation_jwt_wrapper
  simp only []
  split_ifs with h1 h2
  · exact (generateReport_trace_cached p _ _).2.2 r h
  · exact h
  · exact (generateReport_trace_cached p _ _).2.2 r h

theorem completed_run_caches (p : Platform) (m : EnclaveWasmModule)
    (h : (accless_get_attestation_jwt_wrapper p m).outcome = Outcome.completed) :
    (accless_get_attestation_jwt_wrapper p m).module.cachedSgxReport.isSome = true := by
  unfold accless_get_attestation_jwt_wrapper at h ⊢
  simp only [] at h ⊢
  split_ifs at h ⊢ with h1 h2
  · exact (generateReport_trace_cached p _ _).2.1
  · simp [St.stop] at h
  · exact (generateReport_trace_cached p _ _).2.1

/-- Claim C11, as amended. After a completed call the report is cached and a
second call on the same instance, whatever the host answers, leaves the cached
report as it is; but the second call runs the protocol again: its sequence of
host transitions starts with `ocallAttGetQETargetInfo`. -/
theorem second_call_repeats_protocol (p q : Platform) (m : EnclaveWasmModule)
    (hok : (accless_get_attestation_jwt_wrapper p m).outcome = Outcome.completed) :
    (∃ r, (accless_get_attestation_jwt_wrapper p m).module.cachedSgxReport = some r ∧
      (accless_get_attestation_jwt_wrapper q
        (accless_get_attestation_jwt_wrapper p m).module).module.cachedSgxReport = some r) ∧
    (accless_get_attestation_jwt_wrapper q
      (accless_get_attestation_jwt_wrapper p m).module).trace.head? =
        some Event.getQETargetInfo ∧
    Event.getQETargetInfo ∈ (accless_get_attestation_jwt_wrapper q
      (accless_get_attestation_jwt_wrapper p m).module).trace := by
  have hsome := completed_run_caches p m hok
  obtain ⟨r, hr⟩ := Option.isSome_iff_exists.mp hsome
  obtain ⟨rest, hrest⟩ := run_starts_with_qe_target_info q
    (accless_get_attestation_jwt_wrapper p m).module
  refine ⟨⟨r, hr, run_keeps_cached q _ r hr⟩, ?_, ?_⟩
  · rw [← hrest]; rfl
  · rw [← hrest]; simp

/-- Claim C11, as amended, on `goodPlatform`: the first call completes and the
trace of the second call starts with `ocallAttGetQETargetInfo`. -/
theorem second_call_repeats_protocol_witness :
    (accless_get_attestation_jwt_wrapper goodPlatform
      (accless_get_attestation_jwt_wrapper goodPlatform freshModule).module).trace.head? =
        some Event.getQETargetInfo :=
  (second_call_repeats_protocol goodPlatform goodPlatform freshModule (by decide)).2.1

/-- Claim C11 as stated fails: on `goodPlatform` the first call completes and
caches the report, and the trace of the second call on the module it leaves
contains `ocallAttGetQETargetInfo`. -/
theorem second_call_invokes_qe_target_info :
    (accless_get_attestation_jwt_wrapper goodPlatform freshModule).outcome = Outcome.completed ∧
    (accless_get_attestation_jwt_wrapper goodPlatform freshModule).module.cachedSgxReport =
      some { mrEnclave := List.replicate 32 7,
             reportData := List.replicate 32 1 ++ List.replicate 32 2 } ∧
    Event.getQETargetInfo ∈ (accless_get_attestation_jwt_wrapper goodPlatform
      (accless_get_attestation_jwt_wrapper goodPlatform freshModule).module).trace ∧
    (accless_get_attestation_jwt_wrapper goodPlatform
      (accless_get_attestation_jwt_wrapper goodPlatform freshModule).module).outcome =
        Outcome.completed := by
  refine ⟨?_, ?_, ?_, ?_⟩ <;> decide

/-! ## C12: the measurement -/

/-- Claim C12, as amended. With a cached report and `bufSize == 32` the wrapper
copies the 32 bytes of `mr_enclave` into `buf` and leaves the bytes after them
alone; with no cached report and `bufSize == 32` it throws "Cannot find cached
SGX report!" (`NoCachedReport`) and leaves `buf` unchanged; with
`bufSize != 32` the assertion of line 231 fails, whether a report is cached or
not, and `buf` is unchanged. -/
theorem get_mrenclave_cases (m : EnclaveWasmModule) (buf : List Nat) (bufSize : Int) :
    (∀ report, m.cachedSgxReport = some report → bufSize = 32 →
      report.mrEnclave.length = 32 →
      (accless_get_mrenclave_wrapper m buf bufSize).outcome = MrEnclaveOutcome.copied ∧
      (accless_get_mrenclave_wrapper m buf bufSize).buf.take 32 = report.mrEnclave ∧
      (accless_get_mrenclave_wrapper m buf bufSize).buf.drop 32 = buf.drop 32 ∧
      (buf.length = 32 → (accless_get_mrenclave_wrapper m buf bufSize).buf = report.mrEnclave)) ∧
    (m.cachedSgxReport = none → bufSize = 32 →
      accless_get_mrenclave_wrapper m buf bufSize =
        { outcome := MrEnclaveOutcome.threwNoCachedReport, buf := buf }) ∧
    (bufSize ≠ 32 →
      accless_get_mrenclave_wrapper m buf bufSize =
        { outcome := MrEnclaveOutcome.assertionFailed, buf := buf }) := by
  refine ⟨?_, ?_, ?_⟩
  · intro report hrep hsize hlen
    subst hsize
    have hrun : accless_get_mrenclave_wrapper m buf 32 =
        { outcome := MrEnclaveOutcome.copied, buf := report.mrEnclave ++ buf.drop 32 } := by
      simp [accless_get_mrenclave_wrapper, SGX_MEASUREMENT_SIZE, hrep,
        List.take_of_length_le (Nat.le_of_eq hlen)]
    rw [hrun]
    refine ⟨rfl, ?_, ?_, ?_⟩
    · simp [List.take_append_of_le_length (Nat.le_of_eq hlen.symm),
        List.take_of_length_le (Nat.le_of_eq hlen)]
    · simp [List.drop_append_of_le_length (Nat.le_of_eq hlen.symm),
        List.drop_of_length_le (Nat.le_of_eq hlen)]
    · intro hb
      simp [List.drop_of_length_le (Nat.le_of_eq hb)]
  · intro hnone hsize
    subst hsize
    simp [accless_get_mrenclave_wrapper, SGX_MEASUREMENT_SIZE, hnone]
  · intro hsize
    simp [accless_get_mrenclave_wrapper, SGX_MEASUREMENT_SIZE, hsize]

/-- Claim C12, as amended, on the module left by a completed call, which
yields the cached measurement, and on a fresh module with `bufSize` 32 and 16. -/
theorem get_mrenclave_cases_witness :
    (accless_get_mrenclave_wrapper
        (accless_get_attestation_jwt_wrapper goodPlatform freshModule).module
        (List.replicate 32 0) 32).buf = List.replicate 32 7 ∧
    accless_get_mrenclave_wrapper freshModule (List.replicate 32 0) 32 =
      { outcome := MrEnclaveOutcome.threwNoCachedReport, buf := List.replicate 32 0 } ∧
    accless_get_mrenclave_wrapper freshModule (List.replicate 16 0) 16 =
      { outcome := MrEnclaveOutcome.assertionFailed, buf := List.replicate 16 0 } :=
  ⟨((get_mrenclave_cases (accless_get_attestation_jwt_wrapper goodPlatform freshModule).module
      (List.replicate 32 0) 32).1
      { mrEnclave := List.replicate 32 7,
        reportData := List.replicate 32 1 ++ List.replicate 32 2 }
      (by decide) rfl (by decide)).2.2.2 (by decide),
   (get_mrenclave_cases freshModule (List.replicate 32 0) 32).2.1 rfl rfl,
   (get_mrenclave_cases freshModule (List.replicate 16 0) 16).2.2 (by decide)⟩

/-- Claim C12 as stated fails: with no cached report and `bufSize = 16` the run
ends in the failed assertion of line 231, which comes before the test of the
cache (line 234), not in `NoCachedReport`. -/
theorem get_mrenclave_assert_first :
    freshModule.cachedSgxReport = none ∧
    (accless_get_mrenclave_wrapper freshModule (List.replicate 16 0) 16).outcome =
      MrEnclaveOutcome.assertionFailed ∧
    (accless_get_mrenclave_wrapper freshModule (List.replicate 16 0) 16).outcome ≠
      MrEnclaveOutcome.threwNoCachedReport := by
  refine ⟨rfl, ?_, ?_⟩ <;> decide

/-! ## C13: the enabled flag -/

/-- Claim C13. `accless_is_enabled_wrapper` returns 0 exactly when attestation
is enabled for the module and 1 otherwise, and never another value. -/
theorem is_enabled_inverted (m : EnclaveWasmModule) :
    (accless_is_enabled_wrapper m = 0 ↔ m.acclessEnabled = true) ∧
    (accless_is_enabled_wrapper m = 1 ↔ m.acclessEnabled = false) ∧
    (accless_is_enabled_wrapper m = 0 ∨ accless_is_enabled_wrapper m = 1) := by
  unfold accless_is_enabled_wrapper
  cases m.acclessEnabled <;> simp

/-! ## C14: the endpoint of the attestation service -/

theorem findChar_none (c : Char) (l : List Char) : ∀ i, findChar c l i = none ↔ c ∉ l := by
  induction l with
  | nil => intro i; simp [findChar]
  | cons d ds ih =>
    intro i
    by_cases h : d = c
    · simp [findChar, h]
    · have h' : ¬ c = d := fun e => h e.symm
      simp [findChar, h, h', ih (i + 1)]

theorem findChar_append (c : Char) (host port : List Char) (h : c ∉ host) :
    ∀ i, findChar c (host ++ c :: port) i = some (i + host.length) := by
  induction host with
  | nil => intro i; simp [findChar]
  | cons d ds ih =>
    intro i
    have hd : ¬ d = c := fun e => h (by simp [e])
    have hds : c ∉ ds := fun e => h (by simp [e])
    have e : findChar c (d :: ds ++ c :: port) i = findChar c (ds ++ c :: port) (i + 1) := by
      simp [findChar, hd]
    rw [e, ih hds (i + 1), List.length_cons]
    congr 1
    omega

theorem findChar_some (c : Char) (l : List Char) : ∀ i pos, findChar c l i = some pos →
    ∃ host port, l = host ++ c :: port ∧ c ∉ host ∧ pos = i + host.length := by
  induction l with
  | nil => intro i pos h; simp [findChar] at h
  | cons d ds ih =>
    intro i pos h
    by_cases hd : d = c
    · simp only [findChar, hd, if_true, Option.some.injEq] at h
      exact ⟨[], ds, by simp [hd], by simp, by simp [h]⟩
    · simp only [findChar, hd, if_false] at h
      obtain ⟨host, port, e1, e2, e3⟩ := ih (i + 1) pos h
      refine ⟨d :: host, port, by simp [e1], ?_, by simp only [List.length_cons]; omega⟩
      intro hm
      rcases List.mem_cons.mp hm with e | e
      · exact hd e.symm
      · exact e2 e

theorem splitIpPort_ok (host port : List Char) (h1 : host ≠ []) (h2 : ':' ∉ host)
    (h3 : port ≠ []) : splitIpPort (host ++ ':' :: port) = Except.ok (host, port) := by
  have hl : 0 < host.length := List.length_pos.mpr h1
  have hp : 0 < port.length := List.length_pos.mpr h3
  unfold splitIpPort
  rw [findChar_append ':' host port h2 0]
  simp only [zero_add, List.length_append, List.length_cons]
  rw [if_neg (by omega)]
  simp

theorem splitIpPort_error (h : List Char)
    (hbad : ':' ∉ h ∨ ∃ ip, h = ip ++ [':'] ∧ ':' ∉ ip) :
    splitIpPort h = Except.error AsError.invalidArgument := by
  unfold splitIpPort
  rcases hbad with hno | ⟨ip, hip, hc⟩
  · rw [(findChar_none ':' h 0).mpr hno]
  · subst hip
    rw [findChar_append ':' ip [] hc 0]
    simp

theorem splitIpPort_inv (h ip port : List Char) (hok : splitIpPort h = Except.ok (ip, port)) :
    ip ++ [':'] ++ port = h ∧ ip ≠ [] ∧ port ≠ [] ∧ ':' ∉ ip := by
  unfold splitIpPort at hok
  cases hf : findChar ':' h 0 with
  | none => rw [hf] at hok; simp at hok
  | some pos =>
    rw [hf] at hok
    obtain ⟨host, rest, e1, e2, e3⟩ := findChar_some ':' h 0 pos hf
    subst e1
    simp only [zero_add] at e3
    subst e3
    simp only [List.length_append, List.length_cons] at hok
    split_ifs at hok with hc
    simp at hok
    obtain ⟨hip, hport⟩ := hok
    subst hip hport
    refine ⟨by simp, ?_, ?_, e2⟩
    · intro e; subst e; simp at hc
    · intro e; subst e; simp at hc

theorem stripHttps_https (rest : List Char) :
    stripHttps ("https://".toList ++ rest) = rest := by
  unfold stripHttps
  rw [if_pos (List.isPrefixOf_iff_prefix.mpr (List.prefix_append _ _))]
  exact List.drop_left _ _

theorem stripHttps_other (u : List Char) (h : ¬ "https://".toList <+: u) : stripHttps u = u := by
  unfold stripHttps
  rw [if_neg (fun e => h (List.isPrefixOf_iff_prefix.mp e))]

theorem attestEnclave_of_ok (doRequest : List Char → List Char → HttpResponse)
    (u ip port : List Char) (h : splitIpPort (stripHttps u) = Except.ok (ip, port)) :
    (attestEnclave doRequest u).requests = [(ip, port)] := by
  unfold attestEnclave
  rw [h]
  simp only []
  split_ifs <;> rfl

theorem attestEnclave_of_error (doRequest : List Char → List Char → HttpResponse)
    (u : List Char) (e : AsError) (h : splitIpPort (stripHttps u) = Except.error e) :
    attestEnclave doRequest u = { requests := [], result := Except.error e } := by
  unfold attestEnclave
  rw [h]

/-- Claim C14, as amended. Let `h` be the URL without one leading `https://`.
If `h` has no colon, or nothing after its first colon, `attestEnclave` throws
`invalid_argument` (`BadAsEndpoint`) and makes no request. For a non-empty
colon-free host and a non-empty port, `https://host:port` parses to
`(host, port)`, and so does `host:port` when it does not itself start with
`https://`. Whenever parsing succeeds, `ip ++ ":" ++ port = h`. -/
theorem as_endpoint_parsing (doRequest : List Char → List Char → HttpResponse)
    (u : List Char) :
    ((':' ∉ stripHttps u ∨ ∃ ip, stripHttps u = ip ++ [':'] ∧ ':' ∉ ip) →
      attestEnclave doRequest u =
        { requests := [], result := Except.error AsError.invalidArgument }) ∧
    (∀ host port : List Char, host ≠ [] → ':' ∉ host → port ≠ [] →
      (u = "https://".toList ++ (host ++ ':' :: port) ∨
        (u = host ++ ':' :: port ∧ ¬ "https://".toList <+: u)) →
      splitIpPort (stripHttps u) = Except.ok (host, port) ∧
      (attestEnclave doRequest u).requests = [(host, port)]) ∧
    (∀ ip port : List Char, splitIpPort (stripHttps u) = Except.ok (ip, port) →
      ip ++ [':'] ++ port = stripHttps u ∧ ip ≠ [] ∧ port ≠ [] ∧ ':' ∉ ip) := by
  refine ⟨?_, ?_, ?_⟩
  · intro hbad
    exact attestEnclave_of_error doRequest u _ (splitIpPort_error _ hbad)
  · intro host port h1 h2 h3 hu
    have hs : splitIpPort (stripHttps u) = Except.ok (host, port) := by
      rcases hu with hu | ⟨hu, hn⟩
      · rw [hu, stripHttps_https]; exact splitIpPort_ok host port h1 h2 h3
      · rw [stripHttps_other u hn, hu]; exact splitIpPort_ok host port h1 h2 h3
    exact ⟨hs, attestEnclave_of_ok doRequest u host port hs⟩
  · intro ip port hok
    exact splitIpPort_inv _ ip port hok

/-- Claim C14, as amended, on the URL of the test fixture:
`https://localhost:8443` gives `("localhost", "8443")`. -/
theorem as_endpoint_parsing_witness :
    splitIpPort (stripHttps "https://localhost:8443".toList) =
      Except.ok ("localhost".toList, "8443".toList) ∧
    (attestEnclave okService "https://localhost:8443".toList).requests =
      [("localhost".toList, "8443".toList)] :=
  (as_endpoint_parsing okService "https://localhost:8443".toList).2.1
    "localhost".toList "8443".toList (by decide) (by decide) (by decide) (Or.inl rfl)

/-- Claim C14 as stated fails: for the colon-free host `https` and the port
`//x`, the URL `host:port` is `https://x`; its leading `https://` is removed,
`x` has no colon, and `attestEnclave` throws without a request instead of
parsing to `(host, port)`. -/
theorem as_endpoint_host_named_https :
    "https".toList ≠ [] ∧ ':' ∉ "https".toList ∧ "//x".toList ≠ [] ∧
    stripHttps ("https".toList ++ ':' :: "//x".toList) = "x".toList ∧
    (attestEnclave okService ("https".toList ++ ':' :: "//x".toList)).requests = [] ∧
    (attestEnclave okService ("https".toList ++ ':' :: "//x".toList)).requests ≠
      [("https".toList, "//x".toList)] := by
  refine ⟨?_, ?_, ?_, ?_, ?_, ?_⟩ <;> decide

/-! ## C15: the length written to the out slot -/

theorem serverPubKeyCount_eq (size : Nat) (R : Int)
    (h2 : 2 * size < 2 ^ 64) : serverPubKeyCount size R = 2 * size := by
  unfold serverPubKeyCount pubKeySize toSizeT
  omega

theorem loop_length_valid (cs : List Nat) (hall : ∀ c ∈ cs, isBase64 c = true) :
    ∀ (val : Int) (k : Nat) (out : List Nat), k < 8 →
      (base64DecodeLoop cs val ((k : Int) - 8) out).length =
        out.length + (k + 6 * cs.length) / 8 := by
  induction cs with
  | nil =>
    intro val k out hk
    simp only [base64DecodeLoop, List.length_nil]
    omega
  | cons c cs ih =>
    intro val k out hk
    have hc : isBase64 c = true := hall c (by simp)
    have hcs : ∀ d ∈ cs, isBase64 d = true := fun d hd => hall d (by simp [hd])
    rw [loop_step _ _ _ _ _ hc]
    split_ifs with h
    · have e : (k : Int) - 8 + 6 - 8 = ((k - 2 : Nat) : Int) - 8 := by omega
      rw [e, ih hcs _ (k - 2) _ (by omega)]
      simp only [List.length_append, List.length_cons, List.length_nil]
      omega
    · have e : (k : Int) - 8 + 6 = ((k + 6 : Nat) : Int) - 8 := by omega
      rw [e, ih hcs _ (k + 6) _ (by omega)]
      simp only [List.length_cons]
      omega

theorem base64Decode_length (s : List Nat) :
    (base64Decode s).length = 3 * (s.takeWhile isBase64).length / 4 := by
  unfold base64Decode
  rw [loop_takeWhile]
  have h := loop_length_valid (s.takeWhile isBase64)
    (fun c hc => List.mem_takeWhile_imp hc) 0 0 [] (by omega)
  simp only [Nat.cast_zero, zero_sub, List.length_nil, zero_add] at h
  rw [h]
  omega

/-- Claim C15. On every completed run, with `n` the length of the longest
prefix of base64 characters in the JWE portion of the transfer slot,
`n ≤ jwtResponseSize`, the buffer that is allocated and filled has
`len(JWT) = 3 * n / 4 - 28` bytes, and the value written to `*jwtSizePtr`,
`jwtResponseSize`, is strictly greater than `len(JWT)`. -/
theorem out_size_exceeds_jwt_length (p : Platform) (m : EnclaveWasmModule)
    (hok : (accless_get_attestation_jwt_wrapper p m).outcome = Outcome.completed) :
    ∃ (mem : Mem) (off n : Nat) (jwt : List Nat),
      p.ocallAttValidateQuote.dataXferPtr = some mem ∧
      n = ((jweBase64 mem
        (wrapInt32 p.ocallAttValidateQuote.jwtResponseSize)).takeWhile isBase64).length ∧
      (n : Int) ≤ wrapInt32 p.ocallAttValidateQuote.jwtResponseSize ∧
      Event.malloc jwt.length ∈ (accless_get_attestation_jwt_wrapper p m).trace ∧
      (accless_get_attestation_jwt_wrapper p m).sandboxBuf = some (off, jwt) ∧
      (accless_get_attestation_jwt_wrapper p m).jwtSize =
        some (wrapInt32 p.ocallAttValidateQuote.jwtResponseSize) ∧
      28 ≤ 3 * n / 4 ∧
      jwt.length = 3 * n / 4 - 28 ∧
      (jwt.length : Int) < wrapInt32 p.ocallAttValidateQuote.jwtResponseSize := by
  rcases run_cases p m with ⟨s, o, hr, hs, ho⟩ | ⟨s, hr, hs, -, hptr, hsz⟩
  · rw [hr] at hok
    simp only [St.stop] at hok
    subst hok
    exact absurd ho (by decide)
  · rw [hr] at hok ⊢
    rcases tail_cases p s (wrapInt32 p.ocallAttValidateQuote.jwtResponseSize) with
      h | ⟨mem, pk, sk, e1, hmem, hR, -, -, -, he1, h⟩
    · rw [h] at hok; simp [St.stop] at hok
    · rcases h with ⟨-, h⟩ | ⟨-, j, hj, h⟩
      · rw [h] at hok; simp [St.stop] at hok
      · rcases h with ⟨-, h⟩ | ⟨g, pt, e2, hl, -, hpt, he2, h⟩
        · rw [h] at hok; simp [St.stop] at hok
        · rcases h with ⟨-, h⟩ | ⟨hgs, h | ⟨off, hoff, -, h⟩⟩
          · rw [h] at hok; simp [St.stop] at hok
          · rw [h] at hok; simp [St.stop] at hok
          · rw [h]
            have hlenR : (jweBase64 mem
                (wrapInt32 p.ocallAttValidateQuote.jwtResponseSize)).length =
                (wrapInt32 p.ocallAttValidateQuote.jwtResponseSize).toNat := by
              unfold jweBase64
              rw [readMem_length]
            have hn := (List.takeWhile_prefix isBase64 (l := jweBase64 mem
              (wrapInt32 p.ocallAttValidateQuote.jwtResponseSize))).length_le
            have hjl : j.length = 3 * ((jweBase64 mem
                (wrapInt32 p.ocallAttValidateQuote.jwtResponseSize)).takeWhile
                  isBase64).length / 4 := by
              rw [hj]; exact base64Decode_length _
            have hptl : pt.length = j.length - 12 - 16 := by
              rw [hpt, overwrite_length, List.length_replicate]
            refine ⟨mem, off, _, pt, hptr ▸ hmem, rfl, ?_, ?_, rfl, rfl, ?_, ?_, ?_⟩
            · omega
            · simp
            · omega
            · omega
            · omega

/-- Claim C15 on `goodPlatform`, whose run completes. -/
theorem out_size_exceeds_jwt_length_witness :
    ∃ (mem : Mem) (off n : Nat) (jwt : List Nat),
      goodPlatform.ocallAttValidateQuote.dataXferPtr = some mem ∧
      n = ((jweBase64 mem
        (wrapInt32 goodPlatform.ocallAttValidateQuote.jwtResponseSize)).takeWhile
          isBase64).length ∧
      (n : Int) ≤ wrapInt32 goodPlatform.ocallAttValidateQuote.jwtResponseSize ∧
      Event.malloc jwt.length ∈ (accless_get_attestation_jwt_wrapper goodPlatform freshModule).trace ∧
      (accless_get_attestation_jwt_wrapper goodPlatform freshModule).sandboxBuf = some (off, jwt) ∧
      (accless_get_attestation_jwt_wrapper goodPlatform freshModule).jwtSize =
        some (wrapInt32 goodPlatform.ocallAttValidateQuote.jwtResponseSize) ∧
      28 ≤ 3 * n / 4 ∧
      jwt.length = 3 * n / 4 - 28 ∧
      (jwt.length : Int) < wrapInt32 goodPlatform.ocallAttValidateQuote.jwtResponseSize :=
  out_size_exceeds_jwt_length goodPlatform freshModule (by decide)

/-! ## C16: the read of the server public key -/

/-- Claim C16 fails on the code. For a transfer buffer of
`jwtResponseSize + 64 = 104` bytes the constructor of line 112 is given the
count `dataXferSize + jwtResponseSize + pubKeySize = 208` from offset 40, a
range that ends 144 bytes after the buffer; when zero bytes follow the buffer
the decoded key has 48 bytes, fewer than the 64 that the two `memcpy` of lines
119-120 read. -/
theorem server_key_read_out_of_bounds :
    rawKeyZeroTailPlatform.ocallAttValidateQuote.dataXferSize =
      (wrapInt32 rawKeyZeroTailPlatform.ocallAttValidateQuote.jwtResponseSize).toNat + 64 ∧
    0 ≤ wrapInt32 rawKeyZeroTailPlatform.ocallAttValidateQuote.jwtResponseSize ∧
    serverPubKeyCount 104 40 = 208 ∧
    ¬ (40 + serverPubKeyCount 104 40 ≤ 104) ∧
    (base64Decode (serverPubKeyBase64 (memA 104) 104 40)).length = 48 ∧
    (accless_get_attestation_jwt_wrapper rawKeyZeroTailPlatform freshModule).outcome =
      Outcome.undefinedRead := by
  refine ⟨?_, ?_, ?_, ?_, ?_, ?_⟩ <;> decide

end Faasm
